import Mathlib

/-!
# MQTT OTA receiver (`src/mqtt_ota.c`): shallow embedding and verification

The C functions `topic_compare`, `mqtt_ota_begin`, `mqtt_ota_write`,
`mqtt_ota_event_handler` and `mqtt_ota_init` are embedded as pure Lean
functions over an explicit session record.

* The session `mqtt_ota_t` is passed in and returned instead of being
  mutated through a pointer.
* Every call into the ESP-IDF storage API or the MQTT client is appended,
  in program order, to a list of `Call`s; a call whose result the C
  library returns is logged together with that result.
* The results of the external calls are inputs (`Responses`): within one
  handler invocation each result-bearing external call site is executed at
  most once, so one record per invocation covers every behaviour of the
  environment.
* `size_t` is the 32-bit unsigned type of the ESP32 family (ILP32);
  arithmetic on it is reduced modulo `2 ^ 32` explicitly.
* `esp_restart()` does not return, and the unsigned division by
  `total_data_len = 0` on line 79 has no defined result; both are visible
  in the `Status` of a `Result`.
* Logging (`ESP_LOGx`) and heap exhaustion in `asprintf`/`calloc` are not
  modelled.
-/

namespace MqttOta

/-! ## Machine types -/

/-- Modulus of `size_t` on the ESP32 family: `2 ^ 32`. -/
def SIZE_MOD : Nat := 4294967296

/-- Conversion of a C `int` argument to the `size_t` parameter type. -/
def size_t_of_int (i : Int) : Nat := (i % 4294967296).toNat

/-- Value read by `printf("%d")` from a 32-bit `size_t` argument: the same
32 bits taken as a signed `int`. -/
def int_of_size_t (x : Nat) : Int :=
  if x % SIZE_MOD < 2147483648 then ((x % SIZE_MOD : Nat) : Int)
  else ((x % SIZE_MOD : Nat) : Int) - 4294967296

/-- Decimal text produced by `%d` for a `size_t` argument. -/
def fmt_d (x : Nat) : String := toString (int_of_size_t x)

/-- The value `ESP_OK` of `esp_err_t`. -/
def ESP_OK : Int := 0

/-- The null pointer, for `const esp_partition_t *`. -/
def NULL : Nat := 0

/-- The terminating byte of a C string. -/
def NUL : Char := Char.ofNat 0

/-! ## Session object (lines 17-21) -/

/-- The struct `mqtt_ota_t`: `partition` is a pointer (`NULL = 0`),
`handle` an `esp_ota_handle_t` (`0` = no open handle). -/
structure mqtt_ota_t where
  msg_id : Int
  handle : Nat
  partition : Nat
  deriving DecidableEq, Repr

/-! ## External calls -/

/-- One call into the storage API, the MQTT client or the system, with the
arguments passed by the source and, for the functions whose result the
library returns, that result as the last field(s). -/
inductive Call where
  | esp_ota_end (handle : Nat) (err : Int)
  | esp_ota_abort (handle : Nat)
  | esp_ota_write (handle : Nat) (data : List Char) (size : Nat) (err : Int)
  | esp_ota_get_next_update_partition (start_from : Nat) (result : Nat)
  | esp_ota_begin (partition : Nat) (image_size : Nat) (err : Int) (out_handle : Nat)
  | esp_ota_set_boot_partition (partition : Nat) (err : Int)
  | esp_mqtt_client_publish (topic : String) (data : String) (len : Nat) (qos : Nat)
      (retain : Nat)
  | esp_mqtt_client_subscribe (topic : String) (qos : Nat)
  | esp_restart
  deriving DecidableEq, Repr

/-- What the environment answers to the result-bearing external calls of
one handler invocation, in the order of the call sites of the source. -/
structure Responses where
  /-- result of `esp_ota_end` on the superseded handle (line 34, discarded) -/
  supersede_end_err : Int
  /-- result of `esp_ota_get_next_update_partition(NULL)` (line 41) -/
  next_update_partition : Nat
  /-- result of `esp_ota_begin` (line 53) -/
  begin_err : Int
  /-- handle stored through the out-parameter of `esp_ota_begin` -/
  begin_handle : Nat
  /-- result of `esp_ota_write` (line 71) -/
  write_err : Int
  /-- result of `esp_ota_end` at the final offset (line 90) -/
  end_err : Int
  /-- result of `esp_ota_set_boot_partition` (line 101) -/
  set_boot_err : Int
  deriving DecidableEq, Repr

/-- How a function of the source finishes. -/
inductive Status where
  /-- the function returned to its caller -/
  | returned
  /-- `esp_restart()` was reached; it does not return -/
  | restarted
  /-- the division on line 79 was reached with `total_data_len = 0` -/
  | undefined
  deriving DecidableEq, Repr

/-- Session after a function, the external calls it made, and how it
finished. -/
structure Result where
  ota : mqtt_ota_t
  calls : List Call
  status : Status
  deriving DecidableEq, Repr

/-! ## Topics -/

/-- The string literal `CONFIG_MQTT_OTA_TOPIC_PREFIX "/progress"`; the
Kconfig value is a parameter. -/
def progress_topic (pfx : String) : String := pfx ++ "/progress"

/-- The string literal `CONFIG_MQTT_OTA_TOPIC_PREFIX "/firmware"`. -/
def firmware_topic (pfx : String) : String := pfx ++ "/firmware"

/-- C `strlen`: number of bytes before the first `NUL`; the list is the
memory from the pointer on and ends at (or before) the terminator. -/
def strlen (s : List Char) : Nat := (s.takeWhile (fun c => c != NUL)).length

/-- C `strncmp`: compares at most `n` bytes and stops after a `NUL`.
Reading past the end of a list yields the terminator. -/
def strncmp : List Char → List Char → Nat → Int
  | _, _, 0 => 0
  | s1, s2, n + 1 =>
    let c1 := s1.headD NUL
    let c2 := s2.headD NUL
    if c1 ≠ c2 then (c1.toNat : Int) - (c2.toNat : Int)
    else if c1 = NUL then 0
    else strncmp s1.tail s2.tail n

/-- Lines 23-29. `topic` holds the `topic_len` bytes of the buffer. -/
def topic_compare (topic : List Char) (topic_len : Nat) (compare : List Char) : Bool :=
  if topic_len ≠ strlen compare then false
  else strncmp topic compare topic_len == 0

/-! ## Begin (lines 31-66) -/

/-- Lines 31-66, `mqtt_ota_begin`. The parameter `size` is unused by the
source (`esp_ota_begin` is passed image size `0`). -/
def mqtt_ota_begin (pfx : String) (ota : mqtt_ota_t) (msg_id : Int) (size : Nat)
    (r : Responses) : Result :=
  let _unused := size
  -- lines 33-36
  let c0 : List Call :=
    if ota.handle ≠ 0 then [Call.esp_ota_end ota.handle r.supersede_end_err] else []
  let ota0 : mqtt_ota_t := if ota.handle ≠ 0 then { ota with handle := 0 } else ota
  -- lines 38-39
  let c1 := c0 ++ [Call.esp_mqtt_client_publish (progress_topic pfx) "ack" 0 0 0]
  -- line 41
  let partition := r.next_update_partition
  let c2 := c1 ++ [Call.esp_ota_get_next_update_partition NULL partition]
  if partition = NULL then
    -- lines 43-47
    ⟨ota0, c2 ++ [Call.esp_mqtt_client_publish (progress_topic pfx)
        "error: partition not found" 0 2 0], Status.returned⟩
  else
    -- lines 52-53
    let c3 := c2 ++ [Call.esp_ota_begin partition 0 r.begin_err r.begin_handle]
    if r.begin_err ≠ ESP_OK then
      -- lines 55-59
      ⟨ota0, c3 ++ [Call.esp_mqtt_client_publish (progress_topic pfx)
          "error: esp_ota_begin failed" 0 2 0], Status.returned⟩
    else
      -- lines 63-65
      ⟨{ handle := r.begin_handle, msg_id := msg_id, partition := partition }, c3,
        Status.returned⟩

/-! ## Continue (lines 68-118) -/

/-- The text built by `asprintf` on lines 82-83. -/
def progress_payload (new_offset total_data_len progress : Nat) : String :=
  fmt_d new_offset ++ "/" ++ fmt_d total_data_len ++ " bytes (" ++ fmt_d progress ++ "%)"

/-- Lines 68-118, `mqtt_ota_write`; `data_len`, `offset` and
`total_data_len` are `size_t`. -/
def mqtt_ota_write (pfx : String) (ota : mqtt_ota_t) (data : List Char)
    (data_len offset total_data_len : Nat) (r : Responses) : Result :=
  -- line 71
  let c0 : List Call := [Call.esp_ota_write ota.handle data data_len r.write_err]
  if r.write_err ≠ ESP_OK then
    -- lines 73-76
    ⟨{ ota with handle := 0 }, c0 ++ [Call.esp_ota_abort ota.handle], Status.returned⟩
  else
    -- line 78
    let new_offset := (offset + data_len) % SIZE_MOD
    -- line 79
    if total_data_len = 0 then ⟨ota, c0, Status.undefined⟩
    else
      let progress := (new_offset * 100) % SIZE_MOD / total_data_len
      -- lines 81-87
      let payload := progress_payload new_offset total_data_len progress
      let c1 := c0 ++ [Call.esp_mqtt_client_publish (progress_topic pfx) payload 0 0 0]
      -- line 89
      if new_offset = total_data_len then
        -- lines 90-91
        let c2 := c1 ++ [Call.esp_ota_end ota.handle r.end_err]
        let ota1 : mqtt_ota_t := { ota with handle := 0 }
        if r.end_err ≠ ESP_OK then
          -- lines 93-98
          ⟨ota1, c2 ++ [Call.esp_mqtt_client_publish (progress_topic pfx)
              "error: image invalid" 0 0 0], Status.returned⟩
        else
          -- line 101
          let c3 := c2 ++ [Call.esp_ota_set_boot_partition ota1.partition r.set_boot_err]
          if r.set_boot_err ≠ ESP_OK then
            -- lines 103-108
            ⟨ota1, c3 ++ [Call.esp_mqtt_client_publish (progress_topic pfx)
                "error: esp_ota_set_boot_partition failed" 0 0 0], Status.returned⟩
          else
            -- lines 111-116
            ⟨ota1, c3 ++ [Call.esp_mqtt_client_publish (progress_topic pfx) "done" 0 0 0,
                Call.esp_restart], Status.restarted⟩
      else
        ⟨ota, c1, Status.returned⟩

/-! ## Event handler (lines 120-146) -/

/-- The values of `esp_mqtt_event_id_t` the handler distinguishes; every
other event id is `other`. -/
inductive esp_mqtt_event_id_t where
  | MQTT_EVENT_CONNECTED
  | MQTT_EVENT_DATA
  | other (id : Int)
  deriving DecidableEq, Repr

/-- The fields of `esp_mqtt_event_t` the handler reads. The lengths and
the offset are C `int`s; `topic` and `data` are the bytes behind the two
pointers. -/
structure esp_mqtt_event_t where
  event_id : esp_mqtt_event_id_t
  topic : List Char
  topic_len : Int
  msg_id : Int
  data : List Char
  data_len : Int
  current_data_offset : Int
  total_data_len : Int
  deriving DecidableEq, Repr

/-- Lines 120-146, `mqtt_ota_event_handler`. -/
def mqtt_ota_event_handler (pfx : String) (ota : mqtt_ota_t) (event : esp_mqtt_event_t)
    (r : Responses) : Result :=
  match event.event_id with
  | esp_mqtt_event_id_t.MQTT_EVENT_CONNECTED =>
    -- lines 127-128
    ⟨ota, [Call.esp_mqtt_client_subscribe (firmware_topic pfx) 2], Status.returned⟩
  | esp_mqtt_event_id_t.MQTT_EVENT_DATA =>
    -- lines 132-135
    let b : Result :=
      if topic_compare event.topic (size_t_of_int event.topic_len) (firmware_topic pfx).toList
      then mqtt_ota_begin pfx ota event.msg_id (size_t_of_int event.total_data_len) r
      else ⟨ota, [], Status.returned⟩
    -- lines 137-140
    if b.ota.handle ≠ 0 ∧ event.msg_id = b.ota.msg_id then
      let w := mqtt_ota_write pfx b.ota event.data (size_t_of_int event.data_len)
        (size_t_of_int event.current_data_offset) (size_t_of_int event.total_data_len) r
      ⟨w.ota, b.calls ++ w.calls, w.status⟩
    else b
  | esp_mqtt_event_id_t.other _ => ⟨ota, [], Status.returned⟩

/-- Line 149: the session allocated by `calloc` in `mqtt_ota_init`, all
fields zero. -/
def mqtt_ota_init : mqtt_ota_t := { msg_id := 0, handle := 0, partition := NULL }

/-- The handler applied to a sequence of events, each with the responses
of the environment during it. Delivery stops when an invocation does not
return. -/
def run_events (pfx : String) : mqtt_ota_t → List (esp_mqtt_event_t × Responses) → Result
  | ota, [] => ⟨ota, [], Status.returned⟩
  | ota, (e, r) :: rest =>
    let res := mqtt_ota_event_handler pfx ota e r
    match res.status with
    | Status.returned =>
      let res2 := run_events pfx res.ota rest
      ⟨res2.ota, res.calls ++ res2.calls, res2.status⟩
    | s => ⟨res.ota, res.calls, s⟩

/-- A sequence of `mqtt_ota_begin` calls (message id, size, responses). -/
def run_begins (pfx : String) : mqtt_ota_t → List (Int × Nat × Responses) → Result
  | ota, [] => ⟨ota, [], Status.returned⟩
  | ota, (msg_id, size, r) :: rest =>
    let res := mqtt_ota_begin pfx ota msg_id size r
    let res2 := run_begins pfx res.ota rest
    ⟨res2.ota, res.calls ++ res2.calls, res2.status⟩



/-! ## Handles open in the storage, read off a sequence of calls -/

/-- The handles the storage has open after one more call: a successful
`esp_ota_begin` opens the handle it returns, `esp_ota_end` and
`esp_ota_abort` release theirs. -/
def open_step (held : List Nat) : Call → List Nat
  | Call.esp_ota_begin _ _ err h => if err = ESP_OK then h :: held else held
  | Call.esp_ota_end h _ => held.filter (fun x => x != h)
  | Call.esp_ota_abort h => held.filter (fun x => x != h)
  | _ => held

/-- The handles open after a sequence of calls. -/
def open_after (held : List Nat) (calls : List Call) : List Nat :=
  calls.foldl open_step held

/-- The handles the session itself holds: its `handle` field unless zero. -/
def held_by (ota : mqtt_ota_t) : List Nat :=
  if ota.handle ≠ 0 then [ota.handle] else []


/-! ## Classifying calls -/

/-- Recognises the calls to `esp_mqtt_client_publish`. -/
def is_publish : Call → Bool
  | Call.esp_mqtt_client_publish _ _ _ _ _ => true
  | _ => false

/-- Recognises the calls to `esp_ota_write`. -/
def is_write : Call → Bool
  | Call.esp_ota_write _ _ _ _ => true
  | _ => false

/-- Recognises the calls to `esp_ota_end`. -/
def is_end : Call → Bool
  | Call.esp_ota_end _ _ => true
  | _ => false


/-! ## Decimal text of the progress notification, as the specification words it -/

/-- The progress text `<new_offset>/<total_length> bytes (<pct>%)` with the
three numbers in decimal. -/
def progress_text (new_offset total_length pct : Nat) : String :=
  toString new_offset ++ "/" ++ toString total_length ++ " bytes (" ++ toString pct ++ "%)"


/-! ## Chunked delivery of one image -/

/-- The data events that deliver the chunks `(data, data_len, responses)`
of one message of length `total` in order, the first at offset `offset`,
each at the offset where the one before ended. `topic`, `topic_len` and
`msg_id` are those of every event. -/
def chunk_events (topic : List Char) (topic_len msg_id : Int) (total : Nat) :
    Nat → List (List Char × Nat × Responses) → List (esp_mqtt_event_t × Responses)
  | _, [] => []
  | offset, (data, len, r) :: rest =>
    (⟨esp_mqtt_event_id_t.MQTT_EVENT_DATA, topic, topic_len, msg_id, data, (len : Int),
        (offset : Int), (total : Int)⟩, r) ::
      chunk_events topic topic_len msg_id total (offset + len) rest

/-- The pairs (new offset, percentage) the specification reports for
chunks of the given lengths, the first starting at `offset`:
`new_offset = offset + data_len`,
`pct = floor (new_offset * 100 / total_length)`. -/
def progress_reports (total : Nat) : Nat → List Nat → List (Nat × Nat)
  | _, [] => []
  | offset, len :: rest =>
    (offset + len, (offset + len) * 100 / total) :: progress_reports total (offset + len) rest

/-- The publish of the specification's progress text for one report. -/
def progress_publish (pfx : String) (total : Nat) (x : Nat × Nat) : Call :=
  Call.esp_mqtt_client_publish (progress_topic pfx) (progress_text x.1 total x.2) 0 0 0


/-! ## Status texts -/

/-- The fixed status texts the specification lists for the progress topic
(section 6), besides the progress text. -/
def spec_status_texts : List String :=
  ["ack", "done", "error: partition not found", "error: begin failed",
    "error: image invalid", "error: activation failed"]

/-- The fixed status texts in the source: the string literals of lines 39,
45, 57, 96, 105 and 112. -/
def status_texts : List String :=
  ["ack", "done", "error: partition not found", "error: esp_ota_begin failed",
    "error: image invalid", "error: esp_ota_set_boot_partition failed"]


/-- A call respects the vocabulary of the progress topic: if it is a
publish, it goes to the progress topic and its payload is one of the fixed
texts of the source or a progress text built on lines 82-83. -/
def in_vocabulary (pfx : String) : Call → Prop
  | Call.esp_mqtt_client_publish topic payload _ _ _ =>
    topic = progress_topic pfx ∧
      (payload ∈ status_texts ∨ ∃ o t p : Nat, payload = progress_payload o t p)
  | _ => True


/-! ## The most recent successful `esp_ota_begin`, read off a sequence of calls -/

/-- The (partition, handle) of the most recent successful `esp_ota_begin`
after one more call. -/
def last_begin_step (cur : Option (Nat × Nat)) : Call → Option (Nat × Nat)
  | Call.esp_ota_begin p _ err h => if err = ESP_OK then some (p, h) else cur
  | _ => cur

/-- The (partition, handle) of the most recent successful `esp_ota_begin`
after a sequence of calls. -/
def last_begin_after (cur : Option (Nat × Nat)) (calls : List Call) : Option (Nat × Nat) :=
  calls.foldl last_begin_step cur

/-- The session agrees with the storage: an open handle is the one the
most recent successful `esp_ota_begin` returned, and the stored partition
is the non-null one passed to that call. -/
def session_matches (ota : mqtt_ota_t) (cur : Option (Nat × Nat)) : Prop :=
  ota.handle ≠ 0 → ota.partition ≠ NULL ∧ cur = some (ota.partition, ota.handle)

/-! ## Shape of `mqtt_ota_write` -/

/-- The five ways through `mqtt_ota_write`, as equations. -/
theorem mqtt_ota_write_cases (pfx : String) (ota : mqtt_ota_t) (data : List Char)
    (data_len offset total_data_len : Nat) (r : Responses) :
    (r.write_err ≠ ESP_OK ∧
      mqtt_ota_write pfx ota data data_len offset total_data_len r =
        ⟨{ ota with handle := 0 },
          [Call.esp_ota_write ota.handle data data_len r.write_err,
            Call.esp_ota_abort ota.handle], Status.returned⟩) ∨
    (r.write_err = ESP_OK ∧ total_data_len = 0 ∧
      mqtt_ota_write pfx ota data data_len offset total_data_len r =
        ⟨ota, [Call.esp_ota_write ota.handle data data_len r.write_err], Status.undefined⟩) ∨
    (r.write_err = ESP_OK ∧ total_data_len ≠ 0 ∧
      (offset + data_len) % SIZE_MOD ≠ total_data_len ∧
      mqtt_ota_write pfx ota data data_len offset total_data_len r =
        ⟨ota,
          [Call.esp_ota_write ota.handle data data_len r.write_err,
            Call.esp_mqtt_client_publish (progress_topic pfx)
              (progress_payload ((offset + data_len) % SIZE_MOD) total_data_len
                ((offset + data_len) % SIZE_MOD * 100 % SIZE_MOD / total_data_len)) 0 0 0],
          Status.returned⟩) ∨
    (r.write_err = ESP_OK ∧ total_data_len ≠ 0 ∧
      (offset + data_len) % SIZE_MOD = total_data_len ∧ r.end_err ≠ ESP_OK ∧
      mqtt_ota_write pfx ota data data_len offset total_data_len r =
        ⟨{ ota with handle := 0 },
          [Call.esp_ota_write ota.handle data data_len r.write_err,
            Call.esp_mqtt_client_publish (progress_topic pfx)
              (progress_payload ((offset + data_len) % SIZE_MOD) total_data_len
                ((offset + data_len) % SIZE_MOD * 100 % SIZE_MOD / total_data_len)) 0 0 0,
            Call.esp_ota_end ota.handle r.end_err,
            Call.esp_mqtt_client_publish (progress_topic pfx) "error: image invalid" 0 0 0],
          Status.returned⟩) ∨
    (r.write_err = ESP_OK ∧ total_data_len ≠ 0 ∧
      (offset + data_len) % SIZE_MOD = total_data_len ∧ r.end_err = ESP_OK ∧
      r.set_boot_err ≠ ESP_OK ∧
      mqtt_ota_write pfx ota data data_len offset total_data_len r =
        ⟨{ ota with handle := 0 },
          [Call.esp_ota_write ota.handle data data_len r.write_err,
            Call.esp_mqtt_client_publish (progress_topic pfx)
              (progress_payload ((offset + data_len) % SIZE_MOD) total_data_len
                ((offset + data_len) % SIZE_MOD * 100 % SIZE_MOD / total_data_len)) 0 0 0,
            Call.esp_ota_end ota.handle r.end_err,
            Call.esp_ota_set_boot_partition ota.partition r.set_boot_err,
            Call.esp_mqtt_client_publish (progress_topic pfx)
              "error: esp_ota_set_boot_partition failed" 0 0 0],
          Status.returned⟩) ∨
    (r.write_err = ESP_OK ∧ total_data_len ≠ 0 ∧
      (offset + data_len) % SIZE_MOD = total_data_len ∧ r.end_err = ESP_OK ∧
      r.set_boot_err = ESP_OK ∧
      mqtt_ota_write pfx ota data data_len offset total_data_len r =
        ⟨{ ota with handle := 0 },
          [Call.esp_ota_write ota.handle data data_len r.write_err,
            Call.esp_mqtt_client_publish (progress_topic pfx)
              (progress_payload ((offset + data_len) % SIZE_MOD) total_data_len
                ((offset + data_len) % SIZE_MOD * 100 % SIZE_MOD / total_data_len)) 0 0 0,
            Call.esp_ota_end ota.handle r.end_err,
            Call.esp_ota_set_boot_partition ota.partition r.set_boot_err,
            Call.esp_mqtt_client_publish (progress_topic pfx) "done" 0 0 0,
            Call.esp_restart],
          Status.restarted⟩) := by
  unfold mqtt_ota_write
  by_cases hw : r.write_err = ESP_OK
  · by_cases ht : total_data_len = 0
    · simp [hw, ht]
    · by_cases hf : (offset + data_len) % SIZE_MOD = total_data_len
      · by_cases he : r.end_err = ESP_OK
        · by_cases hb : r.set_boot_err = ESP_OK
          · simp [hw, ht, hf, he, hb]
          · simp [hw, ht, hf, he, hb]
        · simp [hw, ht, hf, he]
      · simp [hw, ht, hf]
  · simp [hw]

/-- C1 (atomic completion). For every session and every call of
`mqtt_ota_write`: `esp_ota_set_boot_partition` is called exactly when the
write succeeded, `offset + data_len == total_data_len` (in `size_t`) and
`esp_ota_end` was called and succeeded; the publication of "done" followed
by `esp_restart` happens exactly when in addition the set-boot call
succeeded; in every other case there is no restart and no successful
set-boot call. When `total_data_len` is not zero the `esp_ota_end` call is
reached exactly when the write succeeded at the final offset, so its
success can be read off the response of the environment. -/
theorem atomic_completion (pfx : String) (ota : mqtt_ota_t) (data : List Char)
    (data_len offset total_data_len : Nat) (r : Responses) :
    ((∃ p e, Call.esp_ota_set_boot_partition p e ∈
          (mqtt_ota_write pfx ota data data_len offset total_data_len r).calls) ↔
      (r.write_err = ESP_OK ∧ (offset + data_len) % SIZE_MOD = total_data_len ∧
        Call.esp_ota_end ota.handle ESP_OK ∈
          (mqtt_ota_write pfx ota data data_len offset total_data_len r).calls)) ∧
    ((∃ pre, (mqtt_ota_write pfx ota data data_len offset total_data_len r).calls =
          pre ++ [Call.esp_mqtt_client_publish (progress_topic pfx) "done" 0 0 0,
            Call.esp_restart]) ↔
      (r.write_err = ESP_OK ∧ (offset + data_len) % SIZE_MOD = total_data_len ∧
        Call.esp_ota_end ota.handle ESP_OK ∈
          (mqtt_ota_write pfx ota data data_len offset total_data_len r).calls ∧
        Call.esp_ota_set_boot_partition ota.partition ESP_OK ∈
          (mqtt_ota_write pfx ota data data_len offset total_data_len r).calls)) ∧
    (((mqtt_ota_write pfx ota data data_len offset total_data_len r).status = Status.restarted ∨
        Call.esp_restart ∈ (mqtt_ota_write pfx ota data data_len offset total_data_len r).calls) →
      ∃ pre, (mqtt_ota_write pfx ota data data_len offset total_data_len r).calls =
          pre ++ [Call.esp_mqtt_client_publish (progress_topic pfx) "done" 0 0 0,
            Call.esp_restart]) ∧
    ((¬ ∃ pre, (mqtt_ota_write pfx ota data data_len offset total_data_len r).calls =
          pre ++ [Call.esp_mqtt_client_publish (progress_topic pfx) "done" 0 0 0,
            Call.esp_restart]) →
      ∀ p e, Call.esp_ota_set_boot_partition p e ∈
          (mqtt_ota_write pfx ota data data_len offset total_data_len r).calls →
        e ≠ ESP_OK) ∧
    (total_data_len ≠ 0 →
      ((Call.esp_ota_end ota.handle ESP_OK ∈
          (mqtt_ota_write pfx ota data data_len offset total_data_len r).calls) ↔
        (r.write_err = ESP_OK ∧ (offset + data_len) % SIZE_MOD = total_data_len ∧
          r.end_err = ESP_OK))) := by
  rcases mqtt_ota_write_cases pfx ota data data_len offset total_data_len r with
    ⟨hw, h⟩ | ⟨hw, ht, h⟩ | ⟨hw, ht, hf, h⟩ | ⟨hw, ht, hf, he, h⟩ |
    ⟨hw, ht, hf, he, hb, h⟩ | ⟨hw, ht, hf, he, hb, h⟩
  all_goals rw [h]
  all_goals simp_all [List.append_eq_cons_iff, List.cons_eq_append_iff]
  · exact fun hc => he hc.symm
  · exact fun hc => hb hc.symm


/-- C1, witness: the final chunk `offset = 100`, `data_len = 200` of a 300
byte image, every storage call succeeding. -/
theorem atomic_completion_witness :
    Call.esp_ota_end 5 ESP_OK ∈
        (mqtt_ota_write "p" ⟨1, 5, 7⟩ [] 200 100 300 ⟨0, 7, 0, 5, 0, 0, 0⟩).calls ∧
      ∃ p e, Call.esp_ota_set_boot_partition p e ∈
        (mqtt_ota_write "p" ⟨1, 5, 7⟩ [] 200 100 300 ⟨0, 7, 0, 5, 0, 0, 0⟩).calls :=
  have h := atomic_completion "p" ⟨1, 5, 7⟩ [] 200 100 300 ⟨0, 7, 0, 5, 0, 0, 0⟩
  have hend := (h.2.2.2.2 (by decide)).2 ⟨rfl, by decide, rfl⟩
  ⟨hend, h.1.2 ⟨rfl, by decide, hend⟩⟩


/-! ## Shape of `mqtt_ota_begin` -/

/-- The three ways through `mqtt_ota_begin`, as equations. -/
theorem mqtt_ota_begin_cases (pfx : String) (ota : mqtt_ota_t) (msg_id : Int) (size : Nat)
    (r : Responses) :
    (r.next_update_partition = NULL ∧
      mqtt_ota_begin pfx ota msg_id size r =
        ⟨{ ota with handle := 0 },
          (if ota.handle ≠ 0 then [Call.esp_ota_end ota.handle r.supersede_end_err] else []) ++
          [Call.esp_mqtt_client_publish (progress_topic pfx) "ack" 0 0 0,
            Call.esp_ota_get_next_update_partition NULL r.next_update_partition,
            Call.esp_mqtt_client_publish (progress_topic pfx)
              "error: partition not found" 0 2 0], Status.returned⟩) ∨
    (r.next_update_partition ≠ NULL ∧ r.begin_err ≠ ESP_OK ∧
      mqtt_ota_begin pfx ota msg_id size r =
        ⟨{ ota with handle := 0 },
          (if ota.handle ≠ 0 then [Call.esp_ota_end ota.handle r.supersede_end_err] else []) ++
          [Call.esp_mqtt_client_publish (progress_topic pfx) "ack" 0 0 0,
            Call.esp_ota_get_next_update_partition NULL r.next_update_partition,
            Call.esp_ota_begin r.next_update_partition 0 r.begin_err r.begin_handle,
            Call.esp_mqtt_client_publish (progress_topic pfx)
              "error: esp_ota_begin failed" 0 2 0], Status.returned⟩) ∨
    (r.next_update_partition ≠ NULL ∧ r.begin_err = ESP_OK ∧
      mqtt_ota_begin pfx ota msg_id size r =
        ⟨{ msg_id := msg_id, handle := r.begin_handle, partition := r.next_update_partition },
          (if ota.handle ≠ 0 then [Call.esp_ota_end ota.handle r.supersede_end_err] else []) ++
          [Call.esp_mqtt_client_publish (progress_topic pfx) "ack" 0 0 0,
            Call.esp_ota_get_next_update_partition NULL r.next_update_partition,
            Call.esp_ota_begin r.next_update_partition 0 r.begin_err r.begin_handle],
          Status.returned⟩) := by
  unfold mqtt_ota_begin
  by_cases hp : r.next_update_partition = NULL
  · by_cases hh : ota.handle = 0
    · cases ota; simp_all
    · simp [hp, hh]
  · by_cases he : r.begin_err = ESP_OK
    · simp [hp, he]
    · by_cases hh : ota.handle = 0
      · cases ota; simp_all
      · simp [hp, hh, he]


/-! ## Open handles along a sequence of calls -/

theorem open_after_append (held : List Nat) (a b : List Call) :
    open_after held (a ++ b) = open_after (open_after held a) b := by
  simp [open_after, List.foldl_append]

/-- One `mqtt_ota_begin` keeps the handles open in the storage equal to the
one the session holds, provided a successful `esp_ota_begin` does not
return the null handle. -/
theorem open_after_begin (pfx : String) (ota : mqtt_ota_t) (msg_id : Int) (size : Nat)
    (r : Responses) (hnz : r.begin_err = ESP_OK → r.begin_handle ≠ 0) :
    open_after (held_by ota) (mqtt_ota_begin pfx ota msg_id size r).calls =
      held_by (mqtt_ota_begin pfx ota msg_id size r).ota := by
  rcases mqtt_ota_begin_cases pfx ota msg_id size r with ⟨_, h⟩ | ⟨_, he, h⟩ | ⟨_, he, h⟩
  · rw [h]; by_cases hh : ota.handle = 0 <;> simp [open_after, open_step, held_by, hh]
  · rw [h]; by_cases hh : ota.handle = 0 <;> simp [open_after, open_step, held_by, hh, he]
  · rw [h]; by_cases hh : ota.handle = 0 <;>
      simp [open_after, open_step, held_by, hh, he, hnz he]

/-- Within one `mqtt_ota_begin`, `esp_ota_begin` is reached only after the
handle held on entry has been released. -/
theorem begin_call_when_closed (pfx : String) (ota : mqtt_ota_t) (msg_id : Int) (size : Nat)
    (r : Responses) (pre post : List Call) (p s : Nat) (e : Int) (h : Nat)
    (hsplit : (mqtt_ota_begin pfx ota msg_id size r).calls =
      pre ++ Call.esp_ota_begin p s e h :: post) :
    open_after (held_by ota) pre = [] := by
  rcases mqtt_ota_begin_cases pfx ota msg_id size r with ⟨hp, hb⟩ | ⟨hp, he, hb⟩ | ⟨hp, he, hb⟩
  all_goals rw [hb] at hsplit
  all_goals by_cases hh : ota.handle = 0
  all_goals simp only [hh, ne_eq, not_true_eq_false, not_false_eq_true, if_true, if_false,
    List.nil_append, List.cons_append] at hsplit
  all_goals rcases pre with _ | ⟨x1, _ | ⟨x2, _ | ⟨x3, _ | ⟨x4, _ | ⟨x5, pre⟩⟩⟩⟩⟩
  all_goals simp at hsplit
  all_goals casesm* _ ∧ _
  all_goals subst_vars
  all_goals simp [open_after, open_step, held_by, hh]


/-- Along any sequence of `mqtt_ota_begin` calls, `esp_ota_begin` is only
reached with no handle open in the storage. -/
theorem run_begins_closed (pfx : String) (evs : List (Int × Nat × Responses))
    (hnz : ∀ x ∈ evs, x.2.2.begin_err = ESP_OK → x.2.2.begin_handle ≠ 0) :
    ∀ (ota : mqtt_ota_t) (pre post : List Call) (p s : Nat) (e : Int) (h : Nat),
      (run_begins pfx ota evs).calls = pre ++ Call.esp_ota_begin p s e h :: post →
      open_after (held_by ota) pre = [] := by
  induction evs with
  | nil =>
    intro ota pre post p s e h hsplit
    simp [run_begins] at hsplit
  | cons x rest ih =>
    obtain ⟨m, sz, r⟩ := x
    intro ota pre post p s e h hsplit
    have hr : r.begin_err = ESP_OK → r.begin_handle ≠ 0 := hnz (m, sz, r) (by simp)
    have ih2 := ih (fun y hy => hnz y (List.mem_cons_of_mem _ hy))
    simp only [run_begins] at hsplit
    rcases List.append_eq_append_iff.mp hsplit with ⟨a, ha, hb⟩ | ⟨c, hc, hd⟩
    · rw [ha, open_after_append, open_after_begin pfx ota m sz r hr]
      exact ih2 _ a post p s e h hb
    · rcases c with _ | ⟨c0, c⟩
      · simp only [List.nil_append] at hd
        simp only [List.append_nil] at hc
        rw [← hc, open_after_begin pfx ota m sz r hr]
        exact ih2 _ [] post p s e h (by simpa using hd.symm)
      · simp only [List.cons_append, List.cons.injEq] at hd
        obtain ⟨hc0, _⟩ := hd
        subst hc0
        exact begin_call_when_closed pfx ota m sz r pre c p s e h hc

/-- One `mqtt_ota_begin` keeps every non-null handle open in the storage
equal to the one the session holds, whatever the environment answers. -/
theorem open_after_begin_nonnull (pfx : String) (ota : mqtt_ota_t) (msg_id : Int) (size : Nat)
    (r : Responses) (held : List Nat) (hinv : ∀ x ∈ held, x = 0 ∨ x = ota.handle) :
    ∀ x ∈ open_after held (mqtt_ota_begin pfx ota msg_id size r).calls,
      x = 0 ∨ x = (mqtt_ota_begin pfx ota msg_id size r).ota.handle := by
  have hclosed : ∀ x ∈ held.filter (fun y => y != ota.handle), x = 0 := by
    intro x hx
    rcases List.mem_filter.mp hx with ⟨hm, hne⟩
    rcases hinv x hm with h0 | h1
    · exact h0
    · simp [h1] at hne
  have hzero : ota.handle = 0 → ∀ x ∈ held, x = 0 := by
    intro h0 x hx
    rcases hinv x hx with h | h
    · exact h
    · rw [h, h0]
  rcases mqtt_ota_begin_cases pfx ota msg_id size r with ⟨_, h⟩ | ⟨_, he, h⟩ | ⟨_, he, h⟩
  all_goals rw [h]
  all_goals by_cases hh : ota.handle = 0
  all_goals simp only [hh, ne_eq, not_true_eq_false, not_false_eq_true, if_true, if_false,
    List.nil_append, List.cons_append, open_after, List.foldl_cons, List.foldl_nil, open_step]
  all_goals (try rw [if_neg he])
  all_goals (try rw [if_pos he])
  all_goals intro x hx
  · exact Or.inl (hzero hh x hx)
  · exact Or.inl (hclosed x hx)
  · exact Or.inl (hzero hh x hx)
  · exact Or.inl (hclosed x hx)
  · rcases List.mem_cons.mp hx with h1 | h1
    · exact Or.inr h1
    · exact Or.inl (hzero hh x h1)
  · rcases List.mem_cons.mp hx with h1 | h1
    · exact Or.inr h1
    · exact Or.inl (hclosed x h1)

/-- Within one `mqtt_ota_begin`, `esp_ota_begin` is reached only after
every non-null handle has been released. -/
theorem begin_call_nonnull_closed (pfx : String) (ota : mqtt_ota_t) (msg_id : Int)
    (size : Nat) (r : Responses) (held : List Nat)
    (hinv : ∀ x ∈ held, x = 0 ∨ x = ota.handle)
    (pre post : List Call) (p s : Nat) (e : Int) (h : Nat)
    (hsplit : (mqtt_ota_begin pfx ota msg_id size r).calls =
      pre ++ Call.esp_ota_begin p s e h :: post) :
    ∀ x ∈ open_after held pre, x = 0 := by
  have hclosed : ∀ x ∈ held.filter (fun y => y != ota.handle), x = 0 := by
    intro x hx
    rcases List.mem_filter.mp hx with ⟨hm, hne⟩
    rcases hinv x hm with h0 | h1
    · exact h0
    · simp [h1] at hne
  have hzero : ota.handle = 0 → ∀ x ∈ held, x = 0 := by
    intro h0 x hx
    rcases hinv x hx with h | h
    · exact h
    · rw [h, h0]
  rcases mqtt_ota_begin_cases pfx ota msg_id size r with ⟨hp, hb⟩ | ⟨hp, he, hb⟩ | ⟨hp, he, hb⟩
  all_goals rw [hb] at hsplit
  all_goals by_cases hh : ota.handle = 0
  all_goals simp only [hh, ne_eq, not_true_eq_false, not_false_eq_true, if_true, if_false,
    List.nil_append, List.cons_append] at hsplit
  all_goals rcases pre with _ | ⟨x1, _ | ⟨x2, _ | ⟨x3, _ | ⟨x4, _ | ⟨x5, pre⟩⟩⟩⟩⟩
  all_goals simp at hsplit
  all_goals casesm* _ ∧ _
  all_goals subst_vars
  all_goals simp only [open_after, List.foldl_cons, List.foldl_nil, open_step]
  · exact hzero hh
  · exact hclosed
  · exact hzero hh
  · exact hclosed

/-- Along any sequence of `mqtt_ota_begin` calls, whatever the environment
answers, `esp_ota_begin` is only reached with no non-null handle open in
the storage. -/
theorem run_begins_nonnull_closed (pfx : String) (evs : List (Int × Nat × Responses)) :
    ∀ (ota : mqtt_ota_t) (held : List Nat), (∀ x ∈ held, x = 0 ∨ x = ota.handle) →
      ∀ (pre post : List Call) (p s : Nat) (e : Int) (h : Nat),
        (run_begins pfx ota evs).calls = pre ++ Call.esp_ota_begin p s e h :: post →
        ∀ x ∈ open_after held pre, x = 0 := by
  induction evs with
  | nil =>
    intro ota held _ pre post p s e h hsplit
    simp [run_begins] at hsplit
  | cons x rest ih =>
    obtain ⟨m, sz, r⟩ := x
    intro ota held hinv pre post p s e h hsplit
    simp only [run_begins] at hsplit
    rcases List.append_eq_append_iff.mp hsplit with ⟨a, ha, hb⟩ | ⟨c, hc, hd⟩
    · rw [ha, open_after_append]
      exact ih _ _ (open_after_begin_nonnull pfx ota m sz r held hinv) a post p s e h hb
    · rcases c with _ | ⟨c0, c⟩
      · simp only [List.nil_append] at hd
        simp only [List.append_nil] at hc
        rw [← hc]
        have := ih _ _ (open_after_begin_nonnull pfx ota m sz r held hinv) [] post p s e h
          (by simpa using hd.symm)
        simpa [open_after] using this
      · simp only [List.cons_append, List.cons.injEq] at hd
        obtain ⟨hc0, _⟩ := hd
        subst hc0
        exact begin_call_nonnull_closed pfx ota m sz r held hinv pre c p s e h hc

/-- C2 (single session, supersession). For every session and every call of
`mqtt_ota_begin`: when a handle is open on entry the first call made is
`esp_ota_end` on that handle, whatever that call returns the rest of the
function is the one run from the session with the handle cleared, and that
rest contains no further `esp_ota_end`; when no handle is open on entry no
`esp_ota_end` is called. Hence along any sequence of `mqtt_ota_begin`
calls, whatever the environment answers, every `esp_ota_begin` call is made
with no non-null handle open in the storage; and with no handle open at
all when a successful `esp_ota_begin` never hands out the null handle 0. -/
theorem single_session_supersession (pfx : String) (ota : mqtt_ota_t) (msg_id : Int)
    (size : Nat) (r : Responses) :
    (ota.handle ≠ 0 →
      ∀ e : Int,
        (mqtt_ota_begin pfx ota msg_id size { r with supersede_end_err := e }).calls =
            Call.esp_ota_end ota.handle e ::
              (mqtt_ota_begin pfx { ota with handle := 0 } msg_id size r).calls ∧
          (mqtt_ota_begin pfx ota msg_id size { r with supersede_end_err := e }).ota =
            (mqtt_ota_begin pfx { ota with handle := 0 } msg_id size r).ota) ∧
    (∀ h e, Call.esp_ota_end h e ∉
        (mqtt_ota_begin pfx { ota with handle := 0 } msg_id size r).calls) ∧
    (ota.handle = 0 →
      ∀ h e, Call.esp_ota_end h e ∉ (mqtt_ota_begin pfx ota msg_id size r).calls) ∧
    (∀ (evs : List (Int × Nat × Responses)) (pre post : List Call) (p s : Nat) (e : Int)
        (h : Nat),
      (run_begins pfx ota evs).calls = pre ++ Call.esp_ota_begin p s e h :: post →
      ∀ x ∈ open_after (held_by ota) pre, x = 0) ∧
    (∀ evs : List (Int × Nat × Responses),
      (∀ x ∈ evs, x.2.2.begin_err = ESP_OK → x.2.2.begin_handle ≠ 0) →
      ∀ (pre post : List Call) (p s : Nat) (e : Int) (h : Nat),
        (run_begins pfx ota evs).calls = pre ++ Call.esp_ota_begin p s e h :: post →
        open_after (held_by ota) pre = []) := by
  refine ⟨?_, ?_, ?_, ?_, ?_⟩
  · intro hh e
    rcases mqtt_ota_begin_cases pfx ota msg_id size { r with supersede_end_err := e } with
      ⟨hp, h1⟩ | ⟨hp, he, h1⟩ | ⟨hp, he, h1⟩ <;>
    rcases mqtt_ota_begin_cases pfx { ota with handle := 0 } msg_id size r with
      ⟨hp', h2⟩ | ⟨hp', he', h2⟩ | ⟨hp', he', h2⟩ <;>
    simp_all
  · intro h e
    rcases mqtt_ota_begin_cases pfx { ota with handle := 0 } msg_id size r with
      ⟨hp', h2⟩ | ⟨hp', he', h2⟩ | ⟨hp', he', h2⟩ <;>
    simp [h2]
  · intro hh h e
    rcases mqtt_ota_begin_cases pfx ota msg_id size r with
      ⟨hp', h2⟩ | ⟨hp', he', h2⟩ | ⟨hp', he', h2⟩ <;>
    simp [h2, hh]
  · intro evs pre post p s e h hsplit
    refine run_begins_nonnull_closed pfx evs ota (held_by ota) ?_ pre post p s e h hsplit
    intro x hx
    unfold held_by at hx
    by_cases hh : ota.handle = 0
    · simp [hh] at hx
    · simp [hh] at hx
      exact Or.inr hx
  · intro evs hnz pre post p s e h hsplit
    exact run_begins_closed pfx evs hnz ota pre post p s e h hsplit


/-- C2, witness: a Begin arriving while handle 5 is open ends handle 5
first, and `esp_ota_begin` is then called with nothing open. -/
theorem single_session_supersession_witness :
    open_after (held_by ⟨1, 5, 7⟩)
        [Call.esp_ota_end 5 9, Call.esp_mqtt_client_publish "p/progress" "ack" 0 0 0,
          Call.esp_ota_get_next_update_partition NULL 8] = [] ∧
      (mqtt_ota_begin "p" ⟨1, 5, 7⟩ 2 300 ⟨9, 8, 0, 6, 0, 0, 0⟩).calls =
        Call.esp_ota_end 5 9 ::
          (mqtt_ota_begin "p" ⟨1, 0, 7⟩ 2 300 ⟨9, 8, 0, 6, 0, 0, 0⟩).calls :=
  have h := single_session_supersession "p" ⟨1, 5, 7⟩ 2 300 ⟨9, 8, 0, 6, 0, 0, 0⟩
  ⟨h.2.2.2.2 [(2, 300, ⟨9, 8, 0, 6, 0, 0, 0⟩)] (by decide)
      [Call.esp_ota_end 5 9, Call.esp_mqtt_client_publish "p/progress" "ack" 0 0 0,
        Call.esp_ota_get_next_update_partition NULL 8] [] 8 0 0 6 (by decide),
    (h.1 (by decide) 9).1⟩


/-! ## The handler on data events -/

/-- A data event whose topic is not the firmware topic goes straight to the
test on line 137. -/
theorem handler_data_other_topic (pfx : String) (ota : mqtt_ota_t) (event : esp_mqtt_event_t)
    (r : Responses) (hdata : event.event_id = esp_mqtt_event_id_t.MQTT_EVENT_DATA)
    (htopic : topic_compare event.topic (size_t_of_int event.topic_len)
      (firmware_topic pfx).toList = false) :
    mqtt_ota_event_handler pfx ota event r =
      if ota.handle ≠ 0 ∧ event.msg_id = ota.msg_id then
        mqtt_ota_write pfx ota event.data (size_t_of_int event.data_len)
          (size_t_of_int event.current_data_offset) (size_t_of_int event.total_data_len) r
      else ⟨ota, [], Status.returned⟩ := by
  unfold mqtt_ota_event_handler
  simp only [hdata, htopic, Bool.false_eq_true, if_false]
  by_cases hc : ota.handle ≠ 0 ∧ event.msg_id = ota.msg_id
  · rw [if_pos hc, if_pos hc]
    rfl
  · rw [if_neg hc, if_neg hc]

/-- A data event on the firmware topic runs `mqtt_ota_begin` and then the
test on line 137 on the session it leaves. -/
theorem handler_data_firmware_topic (pfx : String) (ota : mqtt_ota_t)
    (event : esp_mqtt_event_t) (r : Responses)
    (hdata : event.event_id = esp_mqtt_event_id_t.MQTT_EVENT_DATA)
    (htopic : topic_compare event.topic (size_t_of_int event.topic_len)
      (firmware_topic pfx).toList = true) :
    mqtt_ota_event_handler pfx ota event r =
      if (mqtt_ota_begin pfx ota event.msg_id (size_t_of_int event.total_data_len) r).ota.handle
            ≠ 0 ∧
          event.msg_id =
            (mqtt_ota_begin pfx ota event.msg_id (size_t_of_int event.total_data_len)
              r).ota.msg_id then
        ⟨(mqtt_ota_write pfx
              (mqtt_ota_begin pfx ota event.msg_id (size_t_of_int event.total_data_len) r).ota
              event.data (size_t_of_int event.data_len)
              (size_t_of_int event.current_data_offset)
              (size_t_of_int event.total_data_len) r).ota,
          (mqtt_ota_begin pfx ota event.msg_id (size_t_of_int event.total_data_len) r).calls ++
            (mqtt_ota_write pfx
              (mqtt_ota_begin pfx ota event.msg_id (size_t_of_int event.total_data_len) r).ota
              event.data (size_t_of_int event.data_len)
              (size_t_of_int event.current_data_offset)
              (size_t_of_int event.total_data_len) r).calls,
          (mqtt_ota_write pfx
              (mqtt_ota_begin pfx ota event.msg_id (size_t_of_int event.total_data_len) r).ota
              event.data (size_t_of_int event.data_len)
              (size_t_of_int event.current_data_offset)
              (size_t_of_int event.total_data_len) r).status⟩
      else mqtt_ota_begin pfx ota event.msg_id (size_t_of_int event.total_data_len) r := by
  unfold mqtt_ota_event_handler
  simp only [hdata, htopic, if_true]

/-- A run of data events off the firmware topic over a session without an
open handle does nothing. -/
theorem run_events_idle (pfx : String) (evs : List (esp_mqtt_event_t × Responses)) :
    ∀ ota : mqtt_ota_t, ota.handle = 0 →
      (∀ x ∈ evs, x.1.event_id = esp_mqtt_event_id_t.MQTT_EVENT_DATA ∧
        topic_compare x.1.topic (size_t_of_int x.1.topic_len)
          (firmware_topic pfx).toList = false) →
      run_events pfx ota evs = ⟨ota, [], Status.returned⟩ := by
  induction evs with
  | nil => intro ota _ _; rfl
  | cons x rest ih =>
    obtain ⟨ev, r⟩ := x
    intro ota h0 hall
    have hx := hall (ev, r) (by simp)
    have hstep : mqtt_ota_event_handler pfx ota ev r = ⟨ota, [], Status.returned⟩ := by
      rw [handler_data_other_topic pfx ota ev r hx.1 hx.2]
      simp [h0]
    simp only [run_events, hstep]
    rw [ih ota h0 (fun y hy => hall y (List.mem_cons_of_mem _ hy))]
    rfl

/-- C3 (abort clears the handle). For every session and every call of
`mqtt_ota_write` whose `esp_ota_write` fails, the calls made are that write
followed by one `esp_ota_abort` on the session handle and nothing else (no
publish, no `esp_ota_end`, no `esp_ota_set_boot_partition`), the handle is
cleared and the function returns; after it, any sequence of data events
off the firmware topic, whatever identifier they carry (the old one
included), makes no call and leaves the session as it is. -/
theorem abort_clears_handle (pfx : String) (ota : mqtt_ota_t) (data : List Char)
    (data_len offset total_data_len : Nat) (r : Responses)
    (hfail : r.write_err ≠ ESP_OK) :
    mqtt_ota_write pfx ota data data_len offset total_data_len r =
        ⟨{ ota with handle := 0 },
          [Call.esp_ota_write ota.handle data data_len r.write_err,
            Call.esp_ota_abort ota.handle], Status.returned⟩ ∧
      ∀ evs : List (esp_mqtt_event_t × Responses),
        (∀ x ∈ evs, x.1.event_id = esp_mqtt_event_id_t.MQTT_EVENT_DATA ∧
          topic_compare x.1.topic (size_t_of_int x.1.topic_len)
            (firmware_topic pfx).toList = false) →
        run_events pfx (mqtt_ota_write pfx ota data data_len offset total_data_len r).ota evs =
          ⟨{ ota with handle := 0 }, [], Status.returned⟩ := by
  have h : mqtt_ota_write pfx ota data data_len offset total_data_len r =
        ⟨{ ota with handle := 0 },
          [Call.esp_ota_write ota.handle data data_len r.write_err,
            Call.esp_ota_abort ota.handle], Status.returned⟩ := by
    unfold mqtt_ota_write
    simp [hfail]
  refine ⟨h, ?_⟩
  intro evs hall
  rw [h]
  exact run_events_idle pfx evs _ rfl hall


/-- C3, witness: the write of a chunk at offset 100 fails with error 261 on
open handle 5; a later chunk with the old identifier 1 is ignored. -/
theorem abort_clears_handle_witness :
    mqtt_ota_write "p" ⟨1, 5, 7⟩ [] 100 100 300 ⟨0, 7, 0, 5, 261, 0, 0⟩ =
        ⟨⟨1, 0, 7⟩, [Call.esp_ota_write 5 [] 100 261, Call.esp_ota_abort 5],
          Status.returned⟩ ∧
      run_events "p" (mqtt_ota_write "p" ⟨1, 5, 7⟩ [] 100 100 300 ⟨0, 7, 0, 5, 261, 0, 0⟩).ota
          [(⟨esp_mqtt_event_id_t.MQTT_EVENT_DATA, [], 0, 1, [], 100, 200, 300⟩,
            ⟨0, 7, 0, 5, 0, 0, 0⟩)] =
        ⟨⟨1, 0, 7⟩, [], Status.returned⟩ :=
  have h := abort_clears_handle "p" ⟨1, 5, 7⟩ [] 100 100 300 ⟨0, 7, 0, 5, 261, 0, 0⟩
    (by decide)
  ⟨h.1, h.2 _ (by decide)⟩

/-- C4 (fail-closed Begin). For every session and every call of
`mqtt_ota_begin` in which `esp_ota_get_next_update_partition` returns
`NULL` or `esp_ota_begin` fails: the session has no open handle
afterwards, the function returns, the publishes it made are "ack" (QoS 0,
not retained) followed by one error text at QoS 2 (not retained), no
`esp_ota_write` is called; and a data event on the firmware topic met with
these responses does exactly what `mqtt_ota_begin` does, so the handler
does not call `mqtt_ota_write` for that message. -/
theorem fail_closed_begin (pfx : String) (ota : mqtt_ota_t) (msg_id : Int) (size : Nat)
    (r : Responses)
    (hfail : r.next_update_partition = NULL ∨ r.begin_err ≠ ESP_OK) :
    (mqtt_ota_begin pfx ota msg_id size r).ota.handle = 0 ∧
    (mqtt_ota_begin pfx ota msg_id size r).status = Status.returned ∧
    (mqtt_ota_begin pfx ota msg_id size r).calls.filter is_publish =
      [Call.esp_mqtt_client_publish (progress_topic pfx) "ack" 0 0 0,
        Call.esp_mqtt_client_publish (progress_topic pfx)
          (if r.next_update_partition = NULL then "error: partition not found"
            else "error: esp_ota_begin failed") 0 2 0] ∧
    (mqtt_ota_begin pfx ota msg_id size r).calls.filter is_write = [] ∧
    (∀ event : esp_mqtt_event_t,
      event.event_id = esp_mqtt_event_id_t.MQTT_EVENT_DATA →
      topic_compare event.topic (size_t_of_int event.topic_len)
        (firmware_topic pfx).toList = true →
      mqtt_ota_event_handler pfx ota event r =
          mqtt_ota_begin pfx ota event.msg_id (size_t_of_int event.total_data_len) r ∧
        (mqtt_ota_event_handler pfx ota event r).calls.filter is_write = []) := by
  have key : ∀ (m : Int) (sz : Nat),
      (mqtt_ota_begin pfx ota m sz r).ota.handle = 0 ∧
      (mqtt_ota_begin pfx ota m sz r).status = Status.returned ∧
      (mqtt_ota_begin pfx ota m sz r).calls.filter is_publish =
        [Call.esp_mqtt_client_publish (progress_topic pfx) "ack" 0 0 0,
          Call.esp_mqtt_client_publish (progress_topic pfx)
            (if r.next_update_partition = NULL then "error: partition not found"
              else "error: esp_ota_begin failed") 0 2 0] ∧
      (mqtt_ota_begin pfx ota m sz r).calls.filter is_write = [] := by
    intro m sz
    rcases mqtt_ota_begin_cases pfx ota m sz r with ⟨hp, h⟩ | ⟨hp, he, h⟩ | ⟨hp, he, h⟩
    · rw [h]
      by_cases hh : ota.handle = 0 <;> simp [hh, hp, is_publish, is_write]
    · rw [h]
      by_cases hh : ota.handle = 0 <;> simp [hh, hp, is_publish, is_write]
    · rcases hfail with hf | hf
      · exact absurd hf hp
      · exact absurd he hf
  refine ⟨(key msg_id size).1, (key msg_id size).2.1, (key msg_id size).2.2.1,
    (key msg_id size).2.2.2, ?_⟩
  intro event hdata htopic
  have hk := key event.msg_id (size_t_of_int event.total_data_len)
  have heq : mqtt_ota_event_handler pfx ota event r =
      mqtt_ota_begin pfx ota event.msg_id (size_t_of_int event.total_data_len) r := by
    rw [handler_data_firmware_topic pfx ota event r hdata htopic]
    simp [hk.1]
  exact ⟨heq, by rw [heq]; exact hk.2.2.2⟩

/-- C4, witness: a Begin over open handle 5 with no update partition. -/
theorem fail_closed_begin_witness :
    (mqtt_ota_begin "p" ⟨1, 5, 7⟩ 2 50 ⟨0, NULL, 0, 0, 0, 0, 0⟩).ota.handle = 0 ∧
      (mqtt_ota_begin "p" ⟨1, 5, 7⟩ 2 50 ⟨0, NULL, 0, 0, 0, 0, 0⟩).calls.filter is_publish =
        [Call.esp_mqtt_client_publish "p/progress" "ack" 0 0 0,
          Call.esp_mqtt_client_publish "p/progress" "error: partition not found" 0 2 0] :=
  have h := fail_closed_begin "p" ⟨1, 5, 7⟩ 2 50 ⟨0, NULL, 0, 0, 0, 0, 0⟩ (Or.inl rfl)
  ⟨h.1, h.2.2.1⟩

/-- C5 (rejection of foreign messages). For every session and every data
event whose topic is not the firmware topic, if its identifier differs from
the stored `msg_id` or no handle is open, the handler returns the session
unchanged (handle, msg_id, partition) and makes no call at all: no publish
and no storage call. -/
theorem rejects_foreign_messages (pfx : String) (ota : mqtt_ota_t) (event : esp_mqtt_event_t)
    (r : Responses) (hdata : event.event_id = esp_mqtt_event_id_t.MQTT_EVENT_DATA)
    (htopic : topic_compare event.topic (size_t_of_int event.topic_len)
      (firmware_topic pfx).toList = false)
    (hforeign : event.msg_id ≠ ota.msg_id ∨ ota.handle = 0) :
    mqtt_ota_event_handler pfx ota event r = ⟨ota, [], Status.returned⟩ := by
  rw [handler_data_other_topic pfx ota event r hdata htopic]
  rcases hforeign with h | h
  · simp [h]
  · simp [h]

/-- C5, witness: identifier 9 on topic "p/other" while the open session has
identifier 1. -/
theorem rejects_foreign_messages_witness :
    mqtt_ota_event_handler "p" ⟨1, 5, 7⟩
        ⟨esp_mqtt_event_id_t.MQTT_EVENT_DATA, "p/other".toList, 7, 9, [], 10, 0, 10⟩
        ⟨0, 7, 0, 5, 0, 0, 0⟩ =
      ⟨⟨1, 5, 7⟩, [], Status.returned⟩ :=
  rejects_foreign_messages "p" ⟨1, 5, 7⟩
    ⟨esp_mqtt_event_id_t.MQTT_EVENT_DATA, "p/other".toList, 7, 9, [], 10, 0, 10⟩
    ⟨0, 7, 0, 5, 0, 0, 0⟩ rfl (by decide) (Or.inl (by decide))


/-- The only `esp_ota_write` call of `mqtt_ota_write` is its first call. -/
theorem mqtt_ota_write_filter_write (pfx : String) (ota : mqtt_ota_t) (data : List Char)
    (data_len offset total_data_len : Nat) (r : Responses) :
    (mqtt_ota_write pfx ota data data_len offset total_data_len r).calls.filter is_write =
      [Call.esp_ota_write ota.handle data data_len r.write_err] := by
  rcases mqtt_ota_write_cases pfx ota data data_len offset total_data_len r with
    ⟨_, h⟩ | ⟨_, _, h⟩ | ⟨_, _, _, h⟩ | ⟨_, _, _, _, h⟩ |
    ⟨_, _, _, _, _, h⟩ | ⟨_, _, _, _, _, h⟩
  all_goals rw [h]
  all_goals simp [is_write]

/-- C6 (the start message carries payload). For every session, open or
not, and every data event on the firmware topic for which region selection
succeeds and `esp_ota_begin` succeeds with a non-zero handle: the handler
runs `mqtt_ota_begin`, which leaves the session holding the new handle,
the selected partition and the identifier of the message, and then in the
same invocation runs `mqtt_ota_write` on that session with the data,
data_len, offset and total length of the same message; `esp_ota_write` is
called exactly once, on the new handle with the data of the message. -/
theorem start_message_carries_payload (pfx : String) (ota : mqtt_ota_t)
    (event : esp_mqtt_event_t) (r : Responses)
    (hdata : event.event_id = esp_mqtt_event_id_t.MQTT_EVENT_DATA)
    (htopic : topic_compare event.topic (size_t_of_int event.topic_len)
      (firmware_topic pfx).toList = true)
    (hregion : r.next_update_partition ≠ NULL) (hbegin : r.begin_err = ESP_OK)
    (hhandle : r.begin_handle ≠ 0) :
    (mqtt_ota_begin pfx ota event.msg_id (size_t_of_int event.total_data_len) r).ota =
      ⟨event.msg_id, r.begin_handle, r.next_update_partition⟩ ∧
    mqtt_ota_event_handler pfx ota event r =
      ⟨(mqtt_ota_write pfx ⟨event.msg_id, r.begin_handle, r.next_update_partition⟩ event.data
            (size_t_of_int event.data_len) (size_t_of_int event.current_data_offset)
            (size_t_of_int event.total_data_len) r).ota,
        (mqtt_ota_begin pfx ota event.msg_id (size_t_of_int event.total_data_len) r).calls ++
          (mqtt_ota_write pfx ⟨event.msg_id, r.begin_handle, r.next_update_partition⟩
            event.data (size_t_of_int event.data_len)
            (size_t_of_int event.current_data_offset)
            (size_t_of_int event.total_data_len) r).calls,
        (mqtt_ota_write pfx ⟨event.msg_id, r.begin_handle, r.next_update_partition⟩ event.data
            (size_t_of_int event.data_len) (size_t_of_int event.current_data_offset)
            (size_t_of_int event.total_data_len) r).status⟩ ∧
    (mqtt_ota_event_handler pfx ota event r).calls.filter is_write =
      [Call.esp_ota_write r.begin_handle event.data (size_t_of_int event.data_len)
        r.write_err] := by
  have hb : (mqtt_ota_begin pfx ota event.msg_id (size_t_of_int event.total_data_len) r).ota =
        ⟨event.msg_id, r.begin_handle, r.next_update_partition⟩ ∧
      (mqtt_ota_begin pfx ota event.msg_id
        (size_t_of_int event.total_data_len) r).calls.filter is_write = [] := by
    rcases mqtt_ota_begin_cases pfx ota event.msg_id (size_t_of_int event.total_data_len) r
      with ⟨hp, _⟩ | ⟨_, he, _⟩ | ⟨_, _, h⟩
    · exact absurd hp hregion
    · exact absurd hbegin he
    · rw [h]
      by_cases hh : ota.handle = 0 <;> simp [hh, is_write]
  have hev : mqtt_ota_event_handler pfx ota event r =
      ⟨(mqtt_ota_write pfx ⟨event.msg_id, r.begin_handle, r.next_update_partition⟩ event.data
            (size_t_of_int event.data_len) (size_t_of_int event.current_data_offset)
            (size_t_of_int event.total_data_len) r).ota,
        (mqtt_ota_begin pfx ota event.msg_id (size_t_of_int event.total_data_len) r).calls ++
          (mqtt_ota_write pfx ⟨event.msg_id, r.begin_handle, r.next_update_partition⟩
            event.data (size_t_of_int event.data_len)
            (size_t_of_int event.current_data_offset)
            (size_t_of_int event.total_data_len) r).calls,
        (mqtt_ota_write pfx ⟨event.msg_id, r.begin_handle, r.next_update_partition⟩ event.data
            (size_t_of_int event.data_len) (size_t_of_int event.current_data_offset)
            (size_t_of_int event.total_data_len) r).status⟩ := by
    rw [handler_data_firmware_topic pfx ota event r hdata htopic, hb.1]
    simp [hhandle]
  refine ⟨hb.1, hev, ?_⟩
  rw [hev]
  simp only [List.filter_append, hb.2, List.nil_append]
  exact mqtt_ota_write_filter_write pfx _ event.data _ _ _ r

/-- C6, witness: a start message with identifier 2 and 100 leading bytes of
a 300 byte image arrives while handle 5 of transfer 1 is still open. -/
theorem start_message_carries_payload_witness :
    (mqtt_ota_event_handler "p" ⟨1, 5, 7⟩
        ⟨esp_mqtt_event_id_t.MQTT_EVENT_DATA, "p/firmware".toList, 10, 2, [], 100, 0, 300⟩
        ⟨0, 8, 0, 6, 0, 0, 0⟩).calls.filter is_write =
      [Call.esp_ota_write 6 [] 100 0] :=
  (start_message_carries_payload "p" ⟨1, 5, 7⟩
    ⟨esp_mqtt_event_id_t.MQTT_EVENT_DATA, "p/firmware".toList, 10, 2, [], 100, 0, 300⟩
    ⟨0, 8, 0, 6, 0, 0, 0⟩ rfl (by decide) (by decide) (by decide) (by decide)).2.2

/-- C7 (Begin success postcondition). For every session and every call
`mqtt_ota_begin(msg_id, size)` in which region selection returns a
partition and `esp_ota_begin` succeeds: afterwards the handle is the one
returned by `esp_ota_begin`, the partition is the selected one and msg_id
is the new identifier; the function returns; its calls are, after the
`esp_ota_end` of a superseded handle if any, the publish of "ack" (QoS 0,
not retained), then region selection, then `esp_ota_begin`; so "ack" is its
only publish and no progress text is published. -/
theorem begin_success_postcondition (pfx : String) (ota : mqtt_ota_t) (msg_id : Int)
    (size : Nat) (r : Responses)
    (hregion : r.next_update_partition ≠ NULL) (hbegin : r.begin_err = ESP_OK) :
    (mqtt_ota_begin pfx ota msg_id size r).ota.handle = r.begin_handle ∧
    (mqtt_ota_begin pfx ota msg_id size r).ota.partition = r.next_update_partition ∧
    (mqtt_ota_begin pfx ota msg_id size r).ota.msg_id = msg_id ∧
    (mqtt_ota_begin pfx ota msg_id size r).status = Status.returned ∧
    (mqtt_ota_begin pfx ota msg_id size r).calls =
      (if ota.handle ≠ 0 then [Call.esp_ota_end ota.handle r.supersede_end_err] else []) ++
        [Call.esp_mqtt_client_publish (progress_topic pfx) "ack" 0 0 0,
          Call.esp_ota_get_next_update_partition NULL r.next_update_partition,
          Call.esp_ota_begin r.next_update_partition 0 ESP_OK r.begin_handle] ∧
    (mqtt_ota_begin pfx ota msg_id size r).calls.filter is_publish =
      [Call.esp_mqtt_client_publish (progress_topic pfx) "ack" 0 0 0] := by
  rcases mqtt_ota_begin_cases pfx ota msg_id size r with ⟨hp, _⟩ | ⟨_, he, _⟩ | ⟨_, _, h⟩
  · exact absurd hp hregion
  · exact absurd hbegin he
  · rw [h]
    by_cases hh : ota.handle = 0 <;> simp [hh, hbegin, is_publish]

/-- C7, witness: Begin(id = 1, total = 300) on the idle session, partition
7 selected, handle 5 returned. -/
theorem begin_success_postcondition_witness :
    (mqtt_ota_begin "p" mqtt_ota_init 1 300 ⟨0, 7, 0, 5, 0, 0, 0⟩).ota = ⟨1, 5, 7⟩ ∧
      (mqtt_ota_begin "p" mqtt_ota_init 1 300 ⟨0, 7, 0, 5, 0, 0, 0⟩).calls.filter is_publish =
        [Call.esp_mqtt_client_publish "p/progress" "ack" 0 0 0] :=
  have h := begin_success_postcondition "p" mqtt_ota_init 1 300 ⟨0, 7, 0, 5, 0, 0, 0⟩
    (by decide) rfl
  ⟨by decide, h.2.2.2.2.2⟩

/-- C8 (Continue transition table). For every session with an open handle
and every call of `mqtt_ota_write` that returns: the session is unchanged
(same handle, msg_id and partition, so still open) exactly when the write
succeeded and `offset + data_len != total_data_len`; in every other
returning case (write failed, end failed, set-boot failed) the session is
the old one with the handle cleared. When `esp_ota_end` fails,
"error: image invalid" is published and `esp_ota_set_boot_partition` is not
called. -/
theorem continue_transition_table (pfx : String) (ota : mqtt_ota_t) (data : List Char)
    (data_len offset total_data_len : Nat) (r : Responses)
    (hopen : ota.handle ≠ 0)
    (hret : (mqtt_ota_write pfx ota data data_len offset total_data_len r).status =
      Status.returned) :
    ((mqtt_ota_write pfx ota data data_len offset total_data_len r).ota = ota ↔
      (r.write_err = ESP_OK ∧ (offset + data_len) % SIZE_MOD ≠ total_data_len)) ∧
    (¬ (r.write_err = ESP_OK ∧ (offset + data_len) % SIZE_MOD ≠ total_data_len) →
      (mqtt_ota_write pfx ota data data_len offset total_data_len r).ota =
        { ota with handle := 0 }) ∧
    (r.write_err = ESP_OK → (offset + data_len) % SIZE_MOD = total_data_len →
      r.end_err ≠ ESP_OK →
      Call.esp_ota_end ota.handle r.end_err ∈
          (mqtt_ota_write pfx ota data data_len offset total_data_len r).calls ∧
        Call.esp_mqtt_client_publish (progress_topic pfx) "error: image invalid" 0 0 0 ∈
          (mqtt_ota_write pfx ota data data_len offset total_data_len r).calls ∧
        ∀ p e, Call.esp_ota_set_boot_partition p e ∉
          (mqtt_ota_write pfx ota data data_len offset total_data_len r).calls) ∧
    (∀ e, Call.esp_ota_end ota.handle e ∈
          (mqtt_ota_write pfx ota data data_len offset total_data_len r).calls →
        e ≠ ESP_OK →
        Call.esp_mqtt_client_publish (progress_topic pfx) "error: image invalid" 0 0 0 ∈
          (mqtt_ota_write pfx ota data data_len offset total_data_len r).calls ∧
        ∀ p e2, Call.esp_ota_set_boot_partition p e2 ∉
          (mqtt_ota_write pfx ota data data_len offset total_data_len r).calls) := by
  have hne : ({ ota with handle := 0 } : mqtt_ota_t) ≠ ota := by
    intro hc
    have := congrArg mqtt_ota_t.handle hc
    exact hopen this.symm
  rcases mqtt_ota_write_cases pfx ota data data_len offset total_data_len r with
    ⟨hw, h⟩ | ⟨hw, ht, h⟩ | ⟨hw, ht, hf, h⟩ | ⟨hw, ht, hf, he, h⟩ |
    ⟨hw, ht, hf, he, hb, h⟩ | ⟨hw, ht, hf, he, hb, h⟩
  all_goals rw [h] at hret ⊢
  all_goals simp_all


/-- C8, witness: the first 100 bytes of a 300 byte image leave the session
open and unchanged. -/
theorem continue_transition_table_witness :
    (mqtt_ota_write "p" ⟨1, 5, 7⟩ [] 100 0 300 ⟨0, 7, 0, 5, 0, 0, 0⟩).ota = ⟨1, 5, 7⟩ :=
  (continue_transition_table "p" ⟨1, 5, 7⟩ [] 100 0 300 ⟨0, 7, 0, 5, 0, 0, 0⟩
    (by decide) (by decide)).1.2 ⟨rfl, by decide⟩

/-! ## Progress text -/

/-- Below `2 ^ 31` the `%d` conversion prints the `size_t` value itself. -/
theorem fmt_d_of_lt (x : Nat) (hx : x < 2147483648) : fmt_d x = toString x := by
  have hmod : x % SIZE_MOD = x := Nat.mod_eq_of_lt (by unfold SIZE_MOD; omega)
  unfold fmt_d int_of_size_t
  rw [hmod, if_pos hx]
  rfl

theorem size_t_of_int_natCast (n : Nat) (hn : n < 4294967296) :
    size_t_of_int (n : Int) = n := by
  unfold size_t_of_int
  omega

theorem progress_payload_eq_text (o t p : Nat) (ho : o < 2147483648) (ht : t < 2147483648)
    (hp : p < 2147483648) : progress_payload o t p = progress_text o t p := by
  unfold progress_payload progress_text
  rw [fmt_d_of_lt o ho, fmt_d_of_lt t ht, fmt_d_of_lt p hp]


/-- The text of a progress notification is none of the fixed status
texts: it ends in a closing bracket. -/
theorem progress_payload_ne_status (o t p : Nat) (s : String)
    (hs : s ∈ ["ack", "done", "error: partition not found", "error: esp_ota_begin failed",
      "error: image invalid", "error: esp_ota_set_boot_partition failed"]) :
    progress_payload o t p ≠ s := by
  intro h
  have hdata : (progress_payload o t p).data =
      ((fmt_d o).data ++ '/' :: ((fmt_d t).data ++
        ' ' :: 'b' :: 'y' :: 't' :: 'e' :: 's' :: ' ' :: '(' :: ((fmt_d p).data ++ ['%']))) ++
        [')'] := by
    simp [progress_payload, String.data_append]
  have hlast : (progress_payload o t p).data.getLast? = some ')' := by
    rw [hdata, List.getLast?_concat]
  rw [h] at hlast
  simp at hs
  rcases hs with rfl | rfl | rfl | rfl | rfl | rfl <;> simp at hlast

/-- Progress notification of `mqtt_ota_write` when nothing overflows: for
`total_data_len > 0`, a successful write, `(offset + data_len) * 100` below
`2 ^ 32` and the three printed numbers below `2 ^ 31`, the publishes of the
call start with the decimal text of the specification (QoS 0, not
retained), directly after the write, and every further publish is one of
the three completion texts. -/
theorem progress_notification_in_range (pfx : String) (ota : mqtt_ota_t) (data : List Char)
    (data_len offset total_data_len : Nat) (r : Responses)
    (htotal : 0 < total_data_len) (hw : r.write_err = ESP_OK)
    (hmul : (offset + data_len) * 100 < 4294967296) (ht : total_data_len < 2147483648)
    (hpct : (offset + data_len) * 100 / total_data_len < 2147483648) :
    ∃ rest : List Call,
      (mqtt_ota_write pfx ota data data_len offset total_data_len r).calls =
        [Call.esp_ota_write ota.handle data data_len ESP_OK,
          Call.esp_mqtt_client_publish (progress_topic pfx)
            (progress_text (offset + data_len) total_data_len
              ((offset + data_len) * 100 / total_data_len)) 0 0 0] ++ rest ∧
      ∀ c ∈ rest, is_publish c = true →
        c ∈ [Call.esp_mqtt_client_publish (progress_topic pfx) "error: image invalid" 0 0 0,
          Call.esp_mqtt_client_publish (progress_topic pfx)
            "error: esp_ota_set_boot_partition failed" 0 0 0,
          Call.esp_mqtt_client_publish (progress_topic pfx) "done" 0 0 0] := by
  have hsum : (offset + data_len) % SIZE_MOD = offset + data_len :=
    Nat.mod_eq_of_lt (by unfold SIZE_MOD; omega)
  have hprod : (offset + data_len) * 100 % SIZE_MOD = (offset + data_len) * 100 :=
    Nat.mod_eq_of_lt (by unfold SIZE_MOD; omega)
  have htext : progress_payload (offset + data_len) total_data_len
      ((offset + data_len) * 100 / total_data_len) =
      progress_text (offset + data_len) total_data_len
        ((offset + data_len) * 100 / total_data_len) :=
    progress_payload_eq_text _ _ _ (by omega) ht hpct
  rcases mqtt_ota_write_cases pfx ota data data_len offset total_data_len r with
    ⟨hw2, _⟩ | ⟨_, ht0, _⟩ | ⟨_, _, _, h⟩ | ⟨_, _, _, _, h⟩ |
    ⟨_, _, _, _, _, h⟩ | ⟨_, _, _, _, _, h⟩
  · exact absurd hw hw2
  · omega
  all_goals rw [h, hsum, hprod, htext, hw]
  · exact ⟨[], by simp⟩
  · exact ⟨[Call.esp_ota_end ota.handle r.end_err,
      Call.esp_mqtt_client_publish (progress_topic pfx) "error: image invalid" 0 0 0],
      by simp [is_publish]⟩
  · exact ⟨[Call.esp_ota_end ota.handle r.end_err,
      Call.esp_ota_set_boot_partition ota.partition r.set_boot_err,
      Call.esp_mqtt_client_publish (progress_topic pfx)
        "error: esp_ota_set_boot_partition failed" 0 0 0], by simp [is_publish]⟩
  · exact ⟨[Call.esp_ota_end ota.handle r.end_err,
      Call.esp_ota_set_boot_partition ota.partition r.set_boot_err,
      Call.esp_mqtt_client_publish (progress_topic pfx) "done" 0 0 0, Call.esp_restart],
      by simp [is_publish]⟩

/-- The in-range progress text at offset 0, 100 bytes, total 300. -/
theorem progress_notification_in_range_witness :
    ∃ rest : List Call,
      (mqtt_ota_write "p" ⟨1, 5, 7⟩ [] 100 0 300 ⟨0, 7, 0, 5, 0, 0, 0⟩).calls =
        [Call.esp_ota_write 5 [] 100 ESP_OK,
          Call.esp_mqtt_client_publish "p/progress" "100/300 bytes (33%)" 0 0 0] ++ rest :=
  (progress_notification_in_range "p" ⟨1, 5, 7⟩ [] 100 0 300 ⟨0, 7, 0, 5, 0, 0, 0⟩
    (by decide) rfl (by decide) (by decide) (by decide)).imp fun _ h => h.1

/-- The scenario of the specification: offset 0, 100 bytes, total 300. -/
theorem progress_scenario_100_of_300 :
    (mqtt_ota_write "p" ⟨1, 5, 7⟩ [] 100 0 300 ⟨0, 7, 0, 5, 0, 0, 0⟩).calls =
      [Call.esp_ota_write 5 [] 100 0,
        Call.esp_mqtt_client_publish "p/progress" "100/300 bytes (33%)" 0 0 0] := by
  decide

/-- C9 (progress notification content), at the last chunk of a 50 000 000
byte image: `new_offset * 100` is 5 000 000 000, which `size_t` holds
modulo `2 ^ 32` as 705 032 704, so the text published is
"50000000/50000000 bytes (14%)", while the percentage of the
specification, `floor (new_offset * 100 / total_length)`, is 100. -/
theorem progress_percent_wraps :
    (mqtt_ota_write "p" ⟨1, 5, 7⟩ [] 1000 49999000 50000000
        ⟨0, 7, 0, 5, 0, 0, 0⟩).calls.filter is_publish =
      [Call.esp_mqtt_client_publish "p/progress" "50000000/50000000 bytes (14%)" 0 0 0,
        Call.esp_mqtt_client_publish "p/progress" "done" 0 0 0] ∧
    progress_text (49999000 + 1000) 50000000 ((49999000 + 1000) * 100 / 50000000) =
      "50000000/50000000 bytes (100%)" ∧
    "50000000/50000000 bytes (14%)" ≠ "50000000/50000000 bytes (100%)" := by
  decide


/-! ## A whole image delivered in chunks -/

theorem run_events_append (pfx : String) (a b : List (esp_mqtt_event_t × Responses)) :
    ∀ ota : mqtt_ota_t, (run_events pfx ota a).status = Status.returned →
      run_events pfx ota (a ++ b) =
        ⟨(run_events pfx (run_events pfx ota a).ota b).ota,
          (run_events pfx ota a).calls ++ (run_events pfx (run_events pfx ota a).ota b).calls,
          (run_events pfx (run_events pfx ota a).ota b).status⟩ := by
  induction a with
  | nil => intro ota _; simp [run_events]
  | cons x rest ih =>
    obtain ⟨ev, r⟩ := x
    intro ota hret
    simp only [List.cons_append, run_events] at hret ⊢
    cases hst : (mqtt_ota_event_handler pfx ota ev r).status with
    | returned =>
      simp only [hst, List.append_eq] at hret ⊢
      rw [ih _ hret]
      simp [List.append_assoc]
    | restarted => simp [hst] at hret
    | undefined => simp [hst] at hret

theorem chunk_events_append (topic : List Char) (topic_len msg_id : Int) (total : Nat)
    (a b : List (List Char × Nat × Responses)) :
    ∀ offset : Nat,
      chunk_events topic topic_len msg_id total offset (a ++ b) =
        chunk_events topic topic_len msg_id total offset a ++
          chunk_events topic topic_len msg_id total
            (offset + (a.map (fun c => c.2.1)).sum) b := by
  induction a with
  | nil => intro offset; simp [chunk_events]
  | cons x rest ih =>
    obtain ⟨d, len, r⟩ := x
    intro offset
    simp [chunk_events, ih, Nat.add_assoc]

theorem progress_reports_append (total : Nat) (a b : List Nat) :
    ∀ offset : Nat,
      progress_reports total offset (a ++ b) =
        progress_reports total offset a ++ progress_reports total (offset + a.sum) b := by
  induction a with
  | nil => intro offset; simp [progress_reports]
  | cons x rest ih =>
    intro offset
    simp [progress_reports, ih, Nat.add_assoc]

/-- Every report lies strictly above the starting offset and at most at
the end of the chunks, when the chunks are non-empty. -/
theorem progress_reports_bounds (total : Nat) (lens : List Nat) :
    ∀ offset : Nat, (∀ l ∈ lens, 0 < l) →
      ∀ x ∈ progress_reports total offset lens,
        offset < x.1 ∧ x.1 ≤ offset + lens.sum ∧ x.2 = x.1 * 100 / total := by
  induction lens with
  | nil => intro offset _ x hx; simp [progress_reports] at hx
  | cons l rest ih =>
    intro offset hpos x hx
    have hl : 0 < l := hpos l (by simp)
    simp only [progress_reports, List.mem_cons] at hx
    rcases hx with rfl | hx
    · refine ⟨?_, ?_, rfl⟩
      · show offset < offset + l
        omega
      · show offset + l ≤ offset + (l :: rest).sum
        simp only [List.sum_cons]
        omega
    · have := ih (offset + l) (fun y hy => hpos y (List.mem_cons_of_mem _ hy)) x hx
      simp only [List.sum_cons]
      exact ⟨by omega, by omega, this.2.2⟩

/-- The reported offsets increase strictly. -/
theorem progress_reports_increasing (total : Nat) (lens : List Nat) :
    ∀ offset : Nat, (∀ l ∈ lens, 0 < l) →
      List.Pairwise (fun a b => a < b) ((progress_reports total offset lens).map Prod.fst) := by
  induction lens with
  | nil => intro offset _; simp [progress_reports]
  | cons l rest ih =>
    intro offset hpos
    have hl : 0 < l := hpos l (by simp)
    have hrest : ∀ y ∈ rest, 0 < y := fun y hy => hpos y (List.mem_cons_of_mem _ hy)
    simp only [progress_reports, List.map_cons, List.pairwise_cons]
    refine ⟨?_, ih (offset + l) hrest⟩
    intro b hb
    rcases List.mem_map.mp hb with ⟨x, hx, rfl⟩
    exact (progress_reports_bounds total rest (offset + l) hrest x hx).1


/-- On an open session, a chunk event carrying the stored identifier off
the firmware topic is handed to `mqtt_ota_write` as it is. -/
theorem handler_chunk (pfx : String) (ota : mqtt_ota_t) (topic : List Char) (topic_len : Int)
    (total offset : Nat) (data : List Char) (len : Nat) (r : Responses)
    (hopen : ota.handle ≠ 0)
    (htopic : topic_compare topic (size_t_of_int topic_len) (firmware_topic pfx).toList = false)
    (hoff : offset < 4294967296) (hlen : len < 4294967296) (htot : total < 4294967296) :
    mqtt_ota_event_handler pfx ota
        ⟨esp_mqtt_event_id_t.MQTT_EVENT_DATA, topic, topic_len, ota.msg_id, data, (len : Int),
          (offset : Int), (total : Int)⟩ r =
      mqtt_ota_write pfx ota data len offset total r := by
  rw [handler_data_other_topic pfx ota _ r rfl htopic]
  simp only [size_t_of_int_natCast _ hoff, size_t_of_int_natCast _ hlen,
    size_t_of_int_natCast _ htot]
  simp [hopen]

/-- A chunk that ends before the declared total, written successfully:
the session stays as it is and the calls are the write and the progress
publish. -/
theorem mqtt_ota_write_before_final (pfx : String) (ota : mqtt_ota_t) (data : List Char)
    (len offset total : Nat) (r : Responses) (hw : r.write_err = ESP_OK)
    (hlt : offset + len < total) (hrange : total * 100 < 4294967296) :
    mqtt_ota_write pfx ota data len offset total r =
      ⟨ota, [Call.esp_ota_write ota.handle data len ESP_OK,
          progress_publish pfx total (offset + len, (offset + len) * 100 / total)],
        Status.returned⟩ := by
  have hsum : (offset + len) % SIZE_MOD = offset + len :=
    Nat.mod_eq_of_lt (by unfold SIZE_MOD; omega)
  have hprod : (offset + len) * 100 % SIZE_MOD = (offset + len) * 100 :=
    Nat.mod_eq_of_lt (by unfold SIZE_MOD; omega)
  have hpct : (offset + len) * 100 / total ≤ 100 :=
    Nat.div_le_of_le_mul (by nlinarith)
  have htext := progress_payload_eq_text (offset + len) total
    ((offset + len) * 100 / total) (by omega) (by omega) (by omega)
  rcases mqtt_ota_write_cases pfx ota data len offset total r with
    ⟨hw2, _⟩ | ⟨_, ht0, _⟩ | ⟨_, _, _, h⟩ | ⟨_, _, hf, _⟩ |
    ⟨_, _, hf, _⟩ | ⟨_, _, hf, _⟩
  · exact absurd hw hw2
  · omega
  · rw [h, hsum, hprod, htext, hw]
    rfl
  all_goals (rw [hsum] at hf; omega)

/-- The chunk that reaches the declared total, written successfully: the
progress publish reports the total with 100 percent, `esp_ota_end` is
called once, and one completion text follows. -/
theorem mqtt_ota_write_final (pfx : String) (ota : mqtt_ota_t) (data : List Char)
    (len offset total : Nat) (r : Responses) (hw : r.write_err = ESP_OK)
    (hT : 0 < total) (heq : offset + len = total) (hrange : total * 100 < 4294967296) :
    (mqtt_ota_write pfx ota data len offset total r).calls.filter is_end =
      [Call.esp_ota_end ota.handle r.end_err] ∧
    ∃ text ∈ ["error: image invalid", "error: esp_ota_set_boot_partition failed", "done"],
      (mqtt_ota_write pfx ota data len offset total r).calls.filter is_publish =
        [progress_publish pfx total (total, 100),
          Call.esp_mqtt_client_publish (progress_topic pfx) text 0 0 0] := by
  have hsum : (offset + len) % SIZE_MOD = total := by
    rw [heq]
    exact Nat.mod_eq_of_lt (by unfold SIZE_MOD; omega)
  have hprod : total * 100 % SIZE_MOD / total = 100 := by
    rw [Nat.mod_eq_of_lt (by unfold SIZE_MOD; omega)]
    exact Nat.mul_div_cancel_left 100 hT
  have htext := progress_payload_eq_text total total 100 (by omega) (by omega) (by omega)
  rcases mqtt_ota_write_cases pfx ota data len offset total r with
    ⟨hw2, _⟩ | ⟨_, ht0, _⟩ | ⟨_, _, hf, _⟩ | ⟨_, _, _, _, h⟩ |
    ⟨_, _, _, _, _, h⟩ | ⟨_, _, _, _, _, h⟩
  · exact absurd hw hw2
  · omega
  · exact absurd hsum hf
  all_goals rw [h, hsum, hprod, htext]
  all_goals simp [is_end, is_publish, progress_publish]

/-- The chunks before the last one: the run returns with the session as it
was, without any `esp_ota_end`, and its publishes are the progress reports
of the specification. -/
theorem run_chunks_before_final (pfx : String) (ota : mqtt_ota_t) (topic : List Char)
    (topic_len : Int) (total : Nat) (hopen : ota.handle ≠ 0)
    (htopic : topic_compare topic (size_t_of_int topic_len) (firmware_topic pfx).toList = false)
    (hrange : total * 100 < 4294967296) (init : List (List Char × Nat × Responses)) :
    ∀ offset : Nat,
      (∀ c ∈ init, 0 < c.2.1 ∧ c.2.2.write_err = ESP_OK) →
      offset + (init.map (fun c => c.2.1)).sum < total →
      (run_events pfx ota (chunk_events topic topic_len ota.msg_id total offset init)).ota =
          ota ∧
        (run_events pfx ota (chunk_events topic topic_len ota.msg_id total offset init)).status =
          Status.returned ∧
        (run_events pfx ota (chunk_events topic topic_len ota.msg_id total offset
            init)).calls.filter is_end = [] ∧
        (run_events pfx ota (chunk_events topic topic_len ota.msg_id total offset
            init)).calls.filter is_publish =
          (progress_reports total offset (init.map (fun c => c.2.1))).map
            (progress_publish pfx total) := by
  induction init with
  | nil => intro offset _ _; simp [chunk_events, run_events, progress_reports]
  | cons x rest ih =>
    obtain ⟨d, len, r⟩ := x
    intro offset hall hlt
    have hx := hall (d, len, r) (by simp)
    simp only [List.map_cons, List.sum_cons] at hlt
    have hstep : mqtt_ota_event_handler pfx ota
        ⟨esp_mqtt_event_id_t.MQTT_EVENT_DATA, topic, topic_len, ota.msg_id, d, (len : Int),
          (offset : Int), (total : Int)⟩ r =
        ⟨ota, [Call.esp_ota_write ota.handle d len ESP_OK,
            progress_publish pfx total (offset + len, (offset + len) * 100 / total)],
          Status.returned⟩ := by
      rw [handler_chunk pfx ota topic topic_len total offset d len r hopen htopic
        (by omega) (by omega) (by omega)]
      exact mqtt_ota_write_before_final pfx ota d len offset total r hx.2 (by omega) hrange
    have ih2 := ih (offset + len) (fun c hc => hall c (List.mem_cons_of_mem _ hc))
      (by omega)
    simp only [chunk_events, run_events, hstep, List.map_cons, progress_reports]
    refine ⟨ih2.1, ih2.2.1, ?_, ?_⟩
    · simp [List.filter_cons, is_end, progress_publish, ih2.2.2.1]
    · simp [List.filter_cons, is_publish, progress_publish, ih2.2.2.2]


theorem run_events_singleton (pfx : String) (ota : mqtt_ota_t) (ev : esp_mqtt_event_t)
    (r : Responses) :
    run_events pfx ota [(ev, r)] = mqtt_ota_event_handler pfx ota ev r := by
  simp only [run_events]
  rcases mqtt_ota_event_handler pfx ota ev r with ⟨o, c, st⟩
  cases st <;> simp

/-- Monotonic progress while the percentage does not wrap. For a declared
total `total > 0` with `total * 100 < 2 ^ 32`, non-empty chunks whose
lengths sum to `total`, delivered from offset 0 to an open session under
its identifier with every write succeeding: the chunks before the last
leave the session as it is and call no `esp_ota_end`; the calls of the
whole delivery are theirs followed by those of `mqtt_ota_write` on the last
chunk; the publishes are the progress reports of the specification, one
per chunk, followed by one completion text; `esp_ota_end` is called once;
the reported offsets increase, every percentage is at most 100 and the
last report is `(total, 100)`. -/
theorem monotonic_progress_in_range (pfx : String) (ota : mqtt_ota_t) (topic : List Char)
    (topic_len : Int) (total : Nat) (init : List (List Char × Nat × Responses))
    (data : List Char) (len : Nat) (r : Responses)
    (hopen : ota.handle ≠ 0)
    (htopic : topic_compare topic (size_t_of_int topic_len) (firmware_topic pfx).toList = false)
    (hT : 0 < total) (hrange : total * 100 < 4294967296)
    (hpos : ∀ c ∈ init ++ [(data, len, r)], 0 < c.2.1)
    (hok : ∀ c ∈ init ++ [(data, len, r)], c.2.2.write_err = ESP_OK)
    (hsum : ((init ++ [(data, len, r)]).map (fun c => c.2.1)).sum = total) :
    (run_events pfx ota (chunk_events topic topic_len ota.msg_id total 0 init)).ota = ota ∧
    (run_events pfx ota (chunk_events topic topic_len ota.msg_id total 0 init)).status =
      Status.returned ∧
    (run_events pfx ota (chunk_events topic topic_len ota.msg_id total 0
        init)).calls.filter is_end = [] ∧
    (run_events pfx ota (chunk_events topic topic_len ota.msg_id total 0
        (init ++ [(data, len, r)]))).calls =
      (run_events pfx ota (chunk_events topic topic_len ota.msg_id total 0 init)).calls ++
        (mqtt_ota_write pfx ota data len (total - len) total r).calls ∧
    (∃ text ∈ ["error: image invalid", "error: esp_ota_set_boot_partition failed", "done"],
      (run_events pfx ota (chunk_events topic topic_len ota.msg_id total 0
          (init ++ [(data, len, r)]))).calls.filter is_publish =
        (progress_reports total 0 ((init ++ [(data, len, r)]).map (fun c => c.2.1))).map
            (progress_publish pfx total) ++
          [Call.esp_mqtt_client_publish (progress_topic pfx) text 0 0 0]) ∧
    (run_events pfx ota (chunk_events topic topic_len ota.msg_id total 0
        (init ++ [(data, len, r)]))).calls.filter is_end =
      [Call.esp_ota_end ota.handle r.end_err] ∧
    List.Pairwise (fun a b => a < b)
      ((progress_reports total 0 ((init ++ [(data, len, r)]).map (fun c => c.2.1))).map
        Prod.fst) ∧
    (∀ x ∈ progress_reports total 0 ((init ++ [(data, len, r)]).map (fun c => c.2.1)),
      x.2 ≤ 100) ∧
    (progress_reports total 0 ((init ++ [(data, len, r)]).map (fun c => c.2.1))).getLast? =
      some (total, 100) := by
  have hlen : 0 < len := hpos (data, len, r) (by simp)
  have hw : r.write_err = ESP_OK := hok (data, len, r) (by simp)
  have hsum2 : (init.map (fun c => c.2.1)).sum + len = total := by
    simpa using hsum
  have hinit := run_chunks_before_final pfx ota topic topic_len total hopen htopic hrange init 0
    (fun c hc => ⟨hpos c (List.mem_append_left _ hc), hok c (List.mem_append_left _ hc)⟩)
    (by omega)
  obtain ⟨hi1, hi2, hi3, hi4⟩ := hinit
  have hlast : run_events pfx ota
      (chunk_events topic topic_len ota.msg_id total
        (0 + (init.map (fun c => c.2.1)).sum) [(data, len, r)]) =
      mqtt_ota_write pfx ota data len (total - len) total r := by
    have hoffs : 0 + (init.map (fun c => c.2.1)).sum = total - len := by omega
    rw [hoffs]
    simp only [chunk_events]
    rw [run_events_singleton, handler_chunk pfx ota topic topic_len total (total - len) data
      len r hopen htopic (by omega) (by omega) (by omega)]
  have hwhole : run_events pfx ota (chunk_events topic topic_len ota.msg_id total 0
      (init ++ [(data, len, r)])) =
      ⟨(mqtt_ota_write pfx ota data len (total - len) total r).ota,
        (run_events pfx ota (chunk_events topic topic_len ota.msg_id total 0 init)).calls ++
          (mqtt_ota_write pfx ota data len (total - len) total r).calls,
        (mqtt_ota_write pfx ota data len (total - len) total r).status⟩ := by
    rw [chunk_events_append, run_events_append pfx _ _ ota hi2, hi1, hlast]
  obtain ⟨hf1, text, htext, hf2⟩ := mqtt_ota_write_final pfx ota data len (total - len) total r
    hw hT (by omega) hrange
  have hlens : ∀ l ∈ (init ++ [(data, len, r)]).map (fun c => c.2.1), 0 < l := by
    intro l hl
    rcases List.mem_map.mp hl with ⟨c, hc, rfl⟩
    exact hpos c hc
  have hreports : progress_reports total 0 ((init ++ [(data, len, r)]).map (fun c => c.2.1)) =
      progress_reports total 0 (init.map (fun c => c.2.1)) ++ [(total, 100)] := by
    rw [List.map_append, progress_reports_append]
    have hoffs : 0 + (init.map (fun c => c.2.1)).sum + len = total := by omega
    simp only [List.map_cons, List.map_nil, progress_reports, hoffs,
      Nat.mul_div_cancel_left 100 hT]
  refine ⟨hi1, hi2, hi3, by rw [hwhole], ⟨text, htext, ?_⟩, ?_, ?_, ?_, ?_⟩
  · rw [hwhole, hreports]
    simp only [List.filter_append, hi4, hf2, List.map_append, List.map_cons,
      List.map_nil, List.append_assoc, List.singleton_append]
  · rw [hwhole]
    simp only [List.filter_append, hi3, hf1, List.nil_append]
  · exact progress_reports_increasing total _ 0 hlens
  · intro x hx
    have hb := progress_reports_bounds total _ 0 hlens x hx
    rw [hsum] at hb
    rw [hb.2.2]
    exact Nat.div_le_of_le_mul (by nlinarith [hb.2.1])
  · rw [hreports, List.getLast?_concat]

/-- Scenarios 2 and 3 of the specification: 300 bytes in chunks of 100 and
200; `esp_ota_end` is called once, on handle 5, and the reports end in
`(300, 100)`. -/
theorem monotonic_progress_in_range_witness :
    (run_events "p" ⟨1, 5, 7⟩
        (chunk_events [] 0 1 300 0
          ([([], 100, ⟨0, 7, 0, 5, 0, 0, 0⟩)] ++
            [([], 200, ⟨0, 7, 0, 5, 0, 0, 0⟩)]))).calls.filter is_end =
      [Call.esp_ota_end 5 0] ∧
    (progress_reports 300 0
        ((([([], 100, ⟨0, 7, 0, 5, 0, 0, 0⟩)] ++ [([], 200, ⟨0, 7, 0, 5, 0, 0, 0⟩)] :
          List (List Char × Nat × Responses))).map (fun c => c.2.1))).getLast? =
      some (300, 100) :=
  have h := monotonic_progress_in_range "p" ⟨1, 5, 7⟩ [] 0 300
    [([], 100, ⟨0, 7, 0, 5, 0, 0, 0⟩)] [] 200 ⟨0, 7, 0, 5, 0, 0, 0⟩
    (by decide) (by decide) (by decide) (by decide) (by decide) (by decide) (by decide)
  ⟨h.2.2.2.2.2.1, h.2.2.2.2.2.2.2.2⟩

/-- C10 (monotonic progress), at a 50 000 000 byte image delivered in two
chunks of 25 000 000 bytes to open handle 5 under its identifier 1, every
storage call succeeding: the publishes are "25000000/50000000 bytes (50%)",
then "50000000/50000000 bytes (14%)", then "done". The percentage of the
last progress notification is 14, not 100, and it is below the one before
it; the specification reports `(50000000, 100)` last. -/
theorem final_percent_wraps :
    (run_events "p" ⟨1, 5, 7⟩
        (chunk_events "p/other".toList 7 1 50000000 0
          [([], 25000000, ⟨0, 7, 0, 5, 0, 0, 0⟩),
            ([], 25000000, ⟨0, 7, 0, 5, 0, 0, 0⟩)])).calls.filter is_publish =
      [Call.esp_mqtt_client_publish "p/progress" "25000000/50000000 bytes (50%)" 0 0 0,
        Call.esp_mqtt_client_publish "p/progress" "50000000/50000000 bytes (14%)" 0 0 0,
        Call.esp_mqtt_client_publish "p/progress" "done" 0 0 0] ∧
    progress_reports 50000000 0 [25000000, 25000000] = [(25000000, 50), (50000000, 100)] ∧
    progress_publish "p" 50000000 (50000000, 100) =
      Call.esp_mqtt_client_publish "p/progress" "50000000/50000000 bytes (100%)" 0 0 0 := by
  decide


/-! ## Connect and other events -/

/-- C13 (connect is state-neutral). For every session, a connected event
makes exactly one call, the subscribe to the firmware topic at QoS 2, so
nothing is published and no storage call is made, and the session is
returned unchanged; an event of any kind other than connected and data
makes no call at all and returns the session unchanged. -/
theorem connect_is_state_neutral (pfx : String) (ota : mqtt_ota_t) (event : esp_mqtt_event_t)
    (r : Responses) :
    (event.event_id = esp_mqtt_event_id_t.MQTT_EVENT_CONNECTED →
      mqtt_ota_event_handler pfx ota event r =
        ⟨ota, [Call.esp_mqtt_client_subscribe (firmware_topic pfx) 2], Status.returned⟩) ∧
    (∀ id : Int, event.event_id = esp_mqtt_event_id_t.other id →
      mqtt_ota_event_handler pfx ota event r = ⟨ota, [], Status.returned⟩) := by
  constructor
  · intro h
    unfold mqtt_ota_event_handler
    simp only [h]
  · intro id h
    unfold mqtt_ota_event_handler
    simp only [h]

/-- C13, witness: a connected event while transfer 1 is open on handle 5,
and a disconnected event (another event id) in the same state. -/
theorem connect_is_state_neutral_witness :
    mqtt_ota_event_handler "p" ⟨1, 5, 7⟩
        ⟨esp_mqtt_event_id_t.MQTT_EVENT_CONNECTED, [], 0, 0, [], 0, 0, 0⟩
        ⟨0, 7, 0, 6, 0, 0, 0⟩ =
      ⟨⟨1, 5, 7⟩, [Call.esp_mqtt_client_subscribe "p/firmware" 2], Status.returned⟩ ∧
    mqtt_ota_event_handler "p" ⟨1, 5, 7⟩
        ⟨esp_mqtt_event_id_t.other 2, [], 0, 0, [], 0, 0, 0⟩ ⟨0, 7, 0, 6, 0, 0, 0⟩ =
      ⟨⟨1, 5, 7⟩, [], Status.returned⟩ :=
  ⟨(connect_is_state_neutral "p" ⟨1, 5, 7⟩
      ⟨esp_mqtt_event_id_t.MQTT_EVENT_CONNECTED, [], 0, 0, [], 0, 0, 0⟩
      ⟨0, 7, 0, 6, 0, 0, 0⟩).1 rfl,
    (connect_is_state_neutral "p" ⟨1, 5, 7⟩
      ⟨esp_mqtt_event_id_t.other 2, [], 0, 0, [], 0, 0, 0⟩
      ⟨0, 7, 0, 6, 0, 0, 0⟩).2 2 rfl⟩

/-! ## Division on line 79 -/

/-- The division on line 79 is reached with divisor zero exactly when the
write succeeded and `total_data_len` is zero. -/
theorem mqtt_ota_write_undefined_iff (pfx : String) (ota : mqtt_ota_t) (data : List Char)
    (data_len offset total_data_len : Nat) (r : Responses) :
    (mqtt_ota_write pfx ota data data_len offset total_data_len r).status = Status.undefined ↔
      (r.write_err = ESP_OK ∧ total_data_len = 0) := by
  rcases mqtt_ota_write_cases pfx ota data data_len offset total_data_len r with
    ⟨hw, h⟩ | ⟨hw, ht, h⟩ | ⟨hw, ht, hf, h⟩ | ⟨hw, ht, hf, he, h⟩ |
    ⟨hw, ht, hf, he, hb, h⟩ | ⟨hw, ht, hf, he, hb, h⟩
  all_goals rw [h]
  all_goals simp_all

/-- C14 (no division by zero), at the first event after start-up: an empty
message on the firmware topic (no payload, declared total length 0) reaches
the zero-initialised session; region selection returns partition 7,
`esp_ota_begin` succeeds with handle 1 and `esp_ota_write` of the zero
bytes succeeds. The handler opens the session, calls `mqtt_ota_write` for
the same message and reaches `new_offset * 100 / total_data_len` with
`total_data_len = 0`. -/
theorem division_by_zero_reached :
    size_t_of_int 0 = 0 ∧
    mqtt_ota_event_handler "p" mqtt_ota_init
        ⟨esp_mqtt_event_id_t.MQTT_EVENT_DATA, "p/firmware".toList, 10, 0, [], 0, 0, 0⟩
        ⟨0, 7, 0, 1, 0, 0, 0⟩ =
      ⟨⟨0, 1, 7⟩,
        [Call.esp_mqtt_client_publish "p/progress" "ack" 0 0 0,
          Call.esp_ota_get_next_update_partition NULL 7,
          Call.esp_ota_begin 7 0 ESP_OK 1,
          Call.esp_ota_write 1 [] 0 ESP_OK],
        Status.undefined⟩ := by
  decide


/-- Every empty start message that gets a session opened and its zero
bytes written reaches the division by zero, whatever the session was. -/
theorem empty_start_message_undefined (pfx : String) (ota : mqtt_ota_t)
    (event : esp_mqtt_event_t) (r : Responses)
    (hdata : event.event_id = esp_mqtt_event_id_t.MQTT_EVENT_DATA)
    (htopic : topic_compare event.topic (size_t_of_int event.topic_len)
      (firmware_topic pfx).toList = true)
    (htotal : event.total_data_len = 0)
    (hregion : r.next_update_partition ≠ NULL) (hbegin : r.begin_err = ESP_OK)
    (hhandle : r.begin_handle ≠ 0) (hwrite : r.write_err = ESP_OK) :
    (mqtt_ota_event_handler pfx ota event r).status = Status.undefined := by
  have hb : (mqtt_ota_begin pfx ota event.msg_id (size_t_of_int event.total_data_len) r).ota =
      ⟨event.msg_id, r.begin_handle, r.next_update_partition⟩ := by
    rcases mqtt_ota_begin_cases pfx ota event.msg_id (size_t_of_int event.total_data_len) r
      with ⟨hp, _⟩ | ⟨_, he, _⟩ | ⟨_, _, h⟩
    · exact absurd hp hregion
    · exact absurd hbegin he
    · rw [h]
  rw [handler_data_firmware_topic pfx ota event r hdata htopic, hb]
  simp only [ne_eq, hhandle, not_false_eq_true, and_self, if_true]
  rw [mqtt_ota_write_undefined_iff]
  exact ⟨hwrite, by rw [htotal]; rfl⟩

/-! ## The identifier after the handle is cleared -/

/-- C11 (identifier and handle cleared together), on the code: after a
failed write, a failed `esp_ota_end`, a failed
`esp_ota_set_boot_partition`, and a Begin that supersedes open handle 5 and
then finds no partition, the handle is 0 and `msg_id` is still 1, the
identifier of the transfer that was aborted, finalized or superseded. -/
theorem identifier_not_cleared :
    (mqtt_ota_write "p" ⟨1, 5, 7⟩ [] 100 100 300 ⟨0, 7, 0, 5, 261, 0, 0⟩).ota = ⟨1, 0, 7⟩ ∧
    (mqtt_ota_write "p" ⟨1, 5, 7⟩ [] 200 100 300 ⟨0, 7, 0, 5, 0, 5379, 0⟩).ota = ⟨1, 0, 7⟩ ∧
    (mqtt_ota_write "p" ⟨1, 5, 7⟩ [] 200 100 300 ⟨0, 7, 0, 5, 0, 0, 258⟩).ota = ⟨1, 0, 7⟩ ∧
    (mqtt_ota_begin "p" ⟨1, 5, 7⟩ 2 50 ⟨0, NULL, 0, 0, 0, 0, 0⟩).ota = ⟨1, 0, 7⟩ := by
  decide

/-- C11, as the code has it. `mqtt_ota_write` never changes `msg_id`, and
a failing `mqtt_ota_begin` does not either: in each step that leaves the
session without a handle (write failure, end failure, activation failure,
Begin failing, also after superseding an open session) the session is the
old one with `handle = 0`, so `msg_id` keeps the old identifier. It is not
consulted in that state: with `handle = 0` a data event off the firmware
topic is ignored whatever identifier it carries, and a successful Begin
replaces it by the identifier of its message. -/
theorem identifier_kept_when_handle_cleared (pfx : String) (ota : mqtt_ota_t) :
    (∀ (data : List Char) (data_len offset total_data_len : Nat) (r : Responses),
      (mqtt_ota_write pfx ota data data_len offset total_data_len r).ota.msg_id =
        ota.msg_id) ∧
    (∀ (data : List Char) (data_len offset total_data_len : Nat) (r : Responses),
      r.write_err ≠ ESP_OK →
      (mqtt_ota_write pfx ota data data_len offset total_data_len r).ota =
        ⟨ota.msg_id, 0, ota.partition⟩) ∧
    (∀ (data : List Char) (data_len offset total_data_len : Nat) (r : Responses),
      r.write_err = ESP_OK → total_data_len ≠ 0 →
      (offset + data_len) % SIZE_MOD = total_data_len →
      (mqtt_ota_write pfx ota data data_len offset total_data_len r).ota =
        ⟨ota.msg_id, 0, ota.partition⟩) ∧
    (∀ (msg_id : Int) (size : Nat) (r : Responses),
      (r.next_update_partition = NULL ∨ r.begin_err ≠ ESP_OK) →
      (mqtt_ota_begin pfx ota msg_id size r).ota = ⟨ota.msg_id, 0, ota.partition⟩) ∧
    (∀ (msg_id : Int) (size : Nat) (r : Responses),
      r.next_update_partition ≠ NULL → r.begin_err = ESP_OK →
      (mqtt_ota_begin pfx ota msg_id size r).ota.msg_id = msg_id) ∧
    (∀ (event : esp_mqtt_event_t) (r : Responses),
      ota.handle = 0 →
      event.event_id = esp_mqtt_event_id_t.MQTT_EVENT_DATA →
      topic_compare event.topic (size_t_of_int event.topic_len)
        (firmware_topic pfx).toList = false →
      mqtt_ota_event_handler pfx ota event r = ⟨ota, [], Status.returned⟩) := by
  refine ⟨?_, ?_, ?_, ?_, ?_, ?_⟩
  · intro data data_len offset total_data_len r
    rcases mqtt_ota_write_cases pfx ota data data_len offset total_data_len r with
      ⟨_, h⟩ | ⟨_, _, h⟩ | ⟨_, _, _, h⟩ | ⟨_, _, _, _, h⟩ |
      ⟨_, _, _, _, _, h⟩ | ⟨_, _, _, _, _, h⟩
    all_goals rw [h]
  · intro data data_len offset total_data_len r hw
    rcases mqtt_ota_write_cases pfx ota data data_len offset total_data_len r with
      ⟨_, h⟩ | ⟨hw2, _, _⟩ | ⟨hw2, _, _, _⟩ | ⟨hw2, _, _, _, _⟩ |
      ⟨hw2, _, _, _, _, _⟩ | ⟨hw2, _, _, _, _, _⟩
    · rw [h]
    all_goals exact absurd hw2 hw
  · intro data data_len offset total_data_len r hw ht hf
    rcases mqtt_ota_write_cases pfx ota data data_len offset total_data_len r with
      ⟨hw2, _⟩ | ⟨_, ht2, _⟩ | ⟨_, _, hf2, _⟩ | ⟨_, _, _, _, h⟩ |
      ⟨_, _, _, _, _, h⟩ | ⟨_, _, _, _, _, h⟩
    · exact absurd hw hw2
    · exact absurd ht2 ht
    · exact absurd hf hf2
    all_goals rw [h]
  · intro msg_id size r hfail
    rcases mqtt_ota_begin_cases pfx ota msg_id size r with ⟨_, h⟩ | ⟨_, _, h⟩ | ⟨hp, he, _⟩
    · rw [h]
    · rw [h]
    · rcases hfail with hf | hf
      · exact absurd hf hp
      · exact absurd he hf
  · intro msg_id size r hp he
    rcases mqtt_ota_begin_cases pfx ota msg_id size r with ⟨hp2, _⟩ | ⟨_, he2, _⟩ | ⟨_, _, h⟩
    · exact absurd hp2 hp
    · exact absurd he he2
    · rw [h]
  · intro event r h0 hdata htopic
    rw [handler_data_other_topic pfx ota event r hdata htopic]
    simp [h0]

/-- C11, witness: the write on handle 5 of transfer 1 fails; the session
keeps identifier 1 with handle 0, and a later chunk carrying identifier 1
is ignored. -/
theorem identifier_kept_when_handle_cleared_witness :
    (mqtt_ota_write "p" ⟨1, 5, 7⟩ [] 100 100 300 ⟨0, 7, 0, 5, 261, 0, 0⟩).ota = ⟨1, 0, 7⟩ ∧
    mqtt_ota_event_handler "p" ⟨1, 0, 7⟩
        ⟨esp_mqtt_event_id_t.MQTT_EVENT_DATA, [], 0, 1, [], 100, 200, 300⟩
        ⟨0, 7, 0, 5, 0, 0, 0⟩ =
      ⟨⟨1, 0, 7⟩, [], Status.returned⟩ :=
  ⟨(identifier_kept_when_handle_cleared "p" ⟨1, 5, 7⟩).2.1 [] 100 100 300
      ⟨0, 7, 0, 5, 261, 0, 0⟩ (by decide),
    (identifier_kept_when_handle_cleared "p" ⟨1, 0, 7⟩).2.2.2.2.2
      ⟨esp_mqtt_event_id_t.MQTT_EVENT_DATA, [], 0, 1, [], 100, 200, 300⟩
      ⟨0, 7, 0, 5, 0, 0, 0⟩ rfl rfl (by decide)⟩


/-! ## Vocabulary of the progress topic -/

/-- The decimal progress text of the specification ends in a closing
bracket. -/
theorem progress_text_last (o t p : Nat) :
    (progress_text o t p).data.getLast? = ")".data.getLast? := by
  have hdata : (progress_text o t p).data =
      ((toString o).data ++ "/".data ++ (toString t).data ++ " bytes (".data ++
        (toString p).data ++ "%".data) ++ ")".data := by
    simp [progress_text, String.data_append]
  rw [hdata]
  exact List.getLast?_append_of_ne_nil _ (by decide)

theorem in_vocabulary_begin (pfx : String) (ota : mqtt_ota_t) (msg_id : Int) (size : Nat)
    (r : Responses) :
    ∀ c ∈ (mqtt_ota_begin pfx ota msg_id size r).calls, in_vocabulary pfx c := by
  rcases mqtt_ota_begin_cases pfx ota msg_id size r with ⟨_, h⟩ | ⟨_, _, h⟩ | ⟨_, _, h⟩
  all_goals rw [h]
  all_goals by_cases hh : ota.handle = 0
  all_goals simp [hh, in_vocabulary, status_texts]

theorem in_vocabulary_write (pfx : String) (ota : mqtt_ota_t) (data : List Char)
    (data_len offset total_data_len : Nat) (r : Responses) :
    ∀ c ∈ (mqtt_ota_write pfx ota data data_len offset total_data_len r).calls,
      in_vocabulary pfx c := by
  rcases mqtt_ota_write_cases pfx ota data data_len offset total_data_len r with
    ⟨_, h⟩ | ⟨_, _, h⟩ | ⟨_, _, _, h⟩ | ⟨_, _, _, _, h⟩ |
    ⟨_, _, _, _, _, h⟩ | ⟨_, _, _, _, _, h⟩
  all_goals rw [h]
  all_goals simp only [List.forall_mem_cons, List.not_mem_nil, false_imp_iff, implies_true,
    and_true, in_vocabulary, true_and]
  all_goals simp only [status_texts, List.mem_cons, List.mem_singleton, true_or, or_true,
    and_true, List.not_mem_nil, or_false]
  all_goals exact Or.inr ⟨_, _, _, rfl⟩


/-- C12 (status payload vocabulary), on the code: when `esp_ota_begin`
fails the handler publishes "error: esp_ota_begin failed", and when
`esp_ota_set_boot_partition` fails "error: esp_ota_set_boot_partition
failed"; neither is among the fixed texts of the specification, and
neither is a progress text. -/
theorem publishes_outside_spec_vocabulary :
    (Call.esp_mqtt_client_publish "p/progress" "error: esp_ota_begin failed" 0 2 0 ∈
        (mqtt_ota_event_handler "p" mqtt_ota_init
          ⟨esp_mqtt_event_id_t.MQTT_EVENT_DATA, "p/firmware".toList, 10, 1, [], 100, 0, 300⟩
          ⟨0, 7, 259, 0, 0, 0, 0⟩).calls ∧
      "error: esp_ota_begin failed" ∉ spec_status_texts ∧
      ∀ o t p : Nat, progress_text o t p ≠ "error: esp_ota_begin failed") ∧
    (Call.esp_mqtt_client_publish "p/progress" "error: esp_ota_set_boot_partition failed"
          0 0 0 ∈
        (mqtt_ota_event_handler "p" ⟨1, 5, 7⟩
          ⟨esp_mqtt_event_id_t.MQTT_EVENT_DATA, [], 0, 1, [], 200, 100, 300⟩
          ⟨0, 7, 0, 5, 0, 0, 258⟩).calls ∧
      "error: esp_ota_set_boot_partition failed" ∉ spec_status_texts ∧
      ∀ o t p : Nat, progress_text o t p ≠ "error: esp_ota_set_boot_partition failed") := by
  refine ⟨⟨by decide, by decide, ?_⟩, ⟨by decide, by decide, ?_⟩⟩
  · intro o t p h
    have hl := progress_text_last o t p
    rw [h] at hl
    exact absurd hl (by decide)
  · intro o t p h
    have hl := progress_text_last o t p
    rw [h] at hl
    exact absurd hl (by decide)

/-- C12, as the code has it. For every session, event and answer of the
environment, every publish of the handler goes to the progress topic and
its payload is "ack", "done", a progress text built on lines 82-83, or one
of exactly these four error texts: "error: partition not found",
"error: esp_ota_begin failed", "error: image invalid",
"error: esp_ota_set_boot_partition failed". Each error text is published
exactly under its cause: region selection returned `NULL`; `esp_ota_begin`
failed; `esp_ota_end` failed at the final offset; `esp_ota_end` succeeded
and `esp_ota_set_boot_partition` failed. -/
theorem status_payload_vocabulary (pfx : String) (ota : mqtt_ota_t) (r : Responses) :
    (∀ event : esp_mqtt_event_t,
      ∀ c ∈ (mqtt_ota_event_handler pfx ota event r).calls, in_vocabulary pfx c) ∧
    (∀ (msg_id : Int) (size : Nat),
      (Call.esp_mqtt_client_publish (progress_topic pfx) "error: partition not found" 0 2 0 ∈
          (mqtt_ota_begin pfx ota msg_id size r).calls ↔
        r.next_update_partition = NULL) ∧
      (Call.esp_mqtt_client_publish (progress_topic pfx) "error: esp_ota_begin failed" 0 2 0 ∈
          (mqtt_ota_begin pfx ota msg_id size r).calls ↔
        (r.next_update_partition ≠ NULL ∧ r.begin_err ≠ ESP_OK))) ∧
    (∀ (data : List Char) (data_len offset total_data_len : Nat),
      (Call.esp_mqtt_client_publish (progress_topic pfx) "error: image invalid" 0 0 0 ∈
          (mqtt_ota_write pfx ota data data_len offset total_data_len r).calls ↔
        (r.write_err = ESP_OK ∧ total_data_len ≠ 0 ∧
          (offset + data_len) % SIZE_MOD = total_data_len ∧ r.end_err ≠ ESP_OK)) ∧
      (Call.esp_mqtt_client_publish (progress_topic pfx)
            "error: esp_ota_set_boot_partition failed" 0 0 0 ∈
          (mqtt_ota_write pfx ota data data_len offset total_data_len r).calls ↔
        (r.write_err = ESP_OK ∧ total_data_len ≠ 0 ∧
          (offset + data_len) % SIZE_MOD = total_data_len ∧ r.end_err = ESP_OK ∧
          r.set_boot_err ≠ ESP_OK))) := by
  refine ⟨?_, ?_, ?_⟩
  · intro event c hc
    cases hid : event.event_id with
    | MQTT_EVENT_CONNECTED =>
      unfold mqtt_ota_event_handler at hc
      simp only [hid, List.mem_singleton] at hc
      rw [hc]
      trivial
    | other id =>
      unfold mqtt_ota_event_handler at hc
      simp only [hid, List.not_mem_nil] at hc
    | MQTT_EVENT_DATA =>
      cases htopic : topic_compare event.topic (size_t_of_int event.topic_len)
          (firmware_topic pfx).toList with
      | false =>
        rw [handler_data_other_topic pfx ota event r hid htopic] at hc
        by_cases hcond : ota.handle ≠ 0 ∧ event.msg_id = ota.msg_id
        · rw [if_pos hcond] at hc
          exact in_vocabulary_write pfx ota _ _ _ _ r c hc
        · rw [if_neg hcond] at hc
          simp at hc
      | true =>
        rw [handler_data_firmware_topic pfx ota event r hid htopic] at hc
        split at hc
        · rcases List.mem_append.mp hc with h1 | h1
          · exact in_vocabulary_begin pfx ota _ _ r c h1
          · exact in_vocabulary_write pfx _ _ _ _ _ r c h1
        · exact in_vocabulary_begin pfx ota _ _ r c hc
  · intro msg_id size
    rcases mqtt_ota_begin_cases pfx ota msg_id size r with ⟨hp, h⟩ | ⟨hp, he, h⟩ | ⟨hp, he, h⟩
    all_goals rw [h]
    all_goals by_cases hh : ota.handle = 0
    all_goals simp_all
  · intro data data_len offset total_data_len
    have hne1 : ∀ o t p : Nat, ¬ "error: image invalid" = progress_payload o t p :=
      fun o t p hc => progress_payload_ne_status o t p _ (by simp) hc.symm
    have hne2 : ∀ o t p : Nat,
        ¬ "error: esp_ota_set_boot_partition failed" = progress_payload o t p :=
      fun o t p hc => progress_payload_ne_status o t p _ (by simp) hc.symm
    rcases mqtt_ota_write_cases pfx ota data data_len offset total_data_len r with
      ⟨hw, h⟩ | ⟨hw, ht, h⟩ | ⟨hw, ht, hf, h⟩ | ⟨hw, ht, hf, he, h⟩ |
      ⟨hw, ht, hf, he, hb, h⟩ | ⟨hw, ht, hf, he, hb, h⟩
    all_goals rw [h]
    all_goals simp_all

/-- C12, witness: the failing `esp_ota_begin` of the start message
publishes "error: esp_ota_begin failed". -/
theorem status_payload_vocabulary_witness :
    in_vocabulary "p"
        (Call.esp_mqtt_client_publish "p/progress" "error: esp_ota_begin failed" 0 2 0) ∧
      Call.esp_mqtt_client_publish "p/progress" "error: esp_ota_begin failed" 0 2 0 ∈
        (mqtt_ota_begin "p" mqtt_ota_init 1 300 ⟨0, 7, 259, 0, 0, 0, 0⟩).calls :=
  have h := status_payload_vocabulary "p" mqtt_ota_init ⟨0, 7, 259, 0, 0, 0, 0⟩
  ⟨h.1 ⟨esp_mqtt_event_id_t.MQTT_EVENT_DATA, "p/firmware".toList, 10, 1, [], 100, 0, 300⟩
      _ (by decide),
    ((h.2.1 1 300).2).2 ⟨by decide, by decide⟩⟩


/-! ## Topic comparison -/

theorem char_toNat_sub_eq_zero (a b : Char) :
    ((a.toNat : Int) - (b.toNat : Int) = 0) ↔ a = b := by
  constructor
  · intro h
    have h2 : a.toNat = b.toNat := by omega
    rw [← Char.ofNat_toNat a, ← Char.ofNat_toNat b, h2]
  · intro h
    rw [h]
    omega

theorem strlen_cons_of_ne (c : Char) (cs : List Char) (hc : c ≠ NUL) :
    strlen (c :: cs) = strlen cs + 1 := by
  simp [strlen, List.takeWhile_cons, hc]

theorem strlen_cons_nul (cs : List Char) : strlen (NUL :: cs) = 0 := by
  simp [strlen, List.takeWhile_cons]

theorem strlen_nil : strlen [] = 0 := by
  simp [strlen]

/-- The first `strlen` bytes of a C string are its bytes before the
terminator. -/
theorem take_strlen (s : List Char) :
    s.take (strlen s) = s.takeWhile (fun c => c != NUL) := by
  induction s with
  | nil => simp [strlen]
  | cons c cs ih =>
    by_cases hc : c = NUL
    · subst hc
      simp [strlen, List.takeWhile_cons]
    · rw [strlen_cons_of_ne c cs hc]
      simp [List.takeWhile_cons, hc, ih]

/-- Within the buffer and within the string, `strncmp` returns 0 exactly
when the first `n` bytes agree. -/
theorem strncmp_eq_zero_iff (n : Nat) :
    ∀ (topic compare : List Char), n ≤ topic.length → n ≤ strlen compare →
      (strncmp topic compare n = 0 ↔ topic.take n = compare.take n) := by
  induction n with
  | zero => intro topic compare _ _; simp [strncmp]
  | succ n ih =>
    intro topic compare ht hc
    rcases topic with _ | ⟨t, ts⟩
    · simp at ht
    rcases compare with _ | ⟨c, cs⟩
    · rw [strlen_nil] at hc
      omega
    by_cases hnul : c = NUL
    · subst hnul
      rw [strlen_cons_nul] at hc
      omega
    rw [strlen_cons_of_ne c cs hnul] at hc
    simp only [List.length_cons] at ht
    by_cases htc : t = c
    · subst htc
      have hrec := ih ts cs (by omega) (by omega)
      simp [strncmp, hnul, hrec]
    · have hsub : ¬ ((t.toNat : Int) - (c.toNat : Int) = 0) :=
        fun h => htc ((char_toNat_sub_eq_zero t c).mp h)
      simp [strncmp, htc, hsub]

/-- C16 (exact topic match). For every buffer `topic` holding at least
`topic_len` bytes, NUL bytes allowed, and every C string `compare`,
`topic_compare` returns true exactly when `topic_len` is the length of
`compare` and the first `topic_len` bytes of `topic` are the bytes of
`compare` before its terminator. In particular a buffer shorter or longer
than the string is rejected, as is one with a NUL among its first
`topic_len` bytes. -/
theorem topic_compare_exact (topic compare : List Char) (topic_len : Nat)
    (hlen : topic_len ≤ topic.length) :
    (topic_compare topic topic_len compare = true ↔
      (topic_len = strlen compare ∧
        topic.take topic_len = compare.takeWhile (fun c => c != NUL))) ∧
    (topic_len < strlen compare → topic_compare topic topic_len compare = false) ∧
    (strlen compare < topic_len → topic_compare topic topic_len compare = false) ∧
    (NUL ∈ topic.take topic_len → topic_compare topic topic_len compare = false) := by
  have hiff : topic_compare topic topic_len compare = true ↔
      (topic_len = strlen compare ∧
        topic.take topic_len = compare.takeWhile (fun c => c != NUL)) := by
    unfold topic_compare
    by_cases heq : topic_len = strlen compare
    · have h := strncmp_eq_zero_iff topic_len topic compare hlen (by omega)
      rw [heq, take_strlen, ← heq] at h
      simp only [ne_eq, heq, not_true_eq_false, if_false, beq_iff_eq, true_and]
      rw [← heq]
      exact h
    · simp [heq]
  refine ⟨hiff, ?_, ?_, ?_⟩
  · intro h
    cases hc : topic_compare topic topic_len compare with
    | false => rfl
    | true => have := (hiff.mp hc).1; omega
  · intro h
    cases hc : topic_compare topic topic_len compare with
    | false => rfl
    | true => have := (hiff.mp hc).1; omega
  · intro h
    cases hc : topic_compare topic topic_len compare with
    | false => rfl
    | true =>
      have h2 := (hiff.mp hc).2
      rw [h2] at h
      have := (List.mem_takeWhile_imp h)
      simp at this

/-- C16, witness: the firmware topic itself is accepted; a proper prefix,
a proper extension and a topic with an embedded NUL are not. -/
theorem topic_compare_exact_witness :
    topic_compare "p/firmware".toList 10 (firmware_topic "p").toList = true ∧
    topic_compare "p/firm".toList 6 (firmware_topic "p").toList = false ∧
    topic_compare "p/firmware/x".toList 12 (firmware_topic "p").toList = false ∧
    topic_compare ("p/fir".toList ++ NUL :: "ware".toList) 10
      (firmware_topic "p").toList = false :=
  ⟨(topic_compare_exact "p/firmware".toList (firmware_topic "p").toList 10
      (by decide)).1.2 ⟨by decide, by decide⟩,
    (topic_compare_exact "p/firm".toList (firmware_topic "p").toList 6
      (by decide)).2.1 (by decide),
    (topic_compare_exact "p/firmware/x".toList (firmware_topic "p").toList 12
      (by decide)).2.2.1 (by decide),
    (topic_compare_exact ("p/fir".toList ++ NUL :: "ware".toList)
      (firmware_topic "p").toList 10 (by decide)).2.2.2 (by decide)⟩


/-! ## The region that is activated -/

theorem last_begin_after_append (cur : Option (Nat × Nat)) (a b : List Call) :
    last_begin_after cur (a ++ b) = last_begin_after (last_begin_after cur a) b := by
  simp [last_begin_after, List.foldl_append]

/-- After `mqtt_ota_begin` the session agrees with the storage, whatever
it was before, and no `esp_ota_set_boot_partition` was called. -/
theorem begin_session_matches (pfx : String) (ota : mqtt_ota_t) (msg_id : Int) (size : Nat)
    (r : Responses) (cur : Option (Nat × Nat)) :
    session_matches (mqtt_ota_begin pfx ota msg_id size r).ota
        (last_begin_after cur (mqtt_ota_begin pfx ota msg_id size r).calls) ∧
      ∀ p e, Call.esp_ota_set_boot_partition p e ∉
        (mqtt_ota_begin pfx ota msg_id size r).calls := by
  rcases mqtt_ota_begin_cases pfx ota msg_id size r with ⟨hp, h⟩ | ⟨hp, he, h⟩ | ⟨hp, he, h⟩
  · rw [h]
    by_cases hh : ota.handle = 0 <;> simp [hh, session_matches]
  · rw [h]
    by_cases hh : ota.handle = 0 <;> simp [hh, session_matches]
  · rw [h]
    by_cases hh : ota.handle = 0 <;>
      simp [hh, session_matches, last_begin_after, last_begin_step, he, hp]

/-- A `mqtt_ota_write` on a session that agrees with the storage makes no
`esp_ota_begin` call, leaves a session that agrees with it, and calls
`esp_ota_set_boot_partition` only on the stored partition. -/
theorem write_session_matches (pfx : String) (ota : mqtt_ota_t) (data : List Char)
    (data_len offset total_data_len : Nat) (r : Responses) (cur : Option (Nat × Nat))
    (hinv : session_matches ota cur) :
    session_matches (mqtt_ota_write pfx ota data data_len offset total_data_len r).ota
        (last_begin_after cur
          (mqtt_ota_write pfx ota data data_len offset total_data_len r).calls) ∧
      ∀ (pre post : List Call) (p : Nat) (e : Int),
        (mqtt_ota_write pfx ota data data_len offset total_data_len r).calls =
          pre ++ Call.esp_ota_set_boot_partition p e :: post →
        p = ota.partition ∧ last_begin_after cur pre = cur := by
  rcases mqtt_ota_write_cases pfx ota data data_len offset total_data_len r with
    ⟨hw, h⟩ | ⟨hw, ht, h⟩ | ⟨hw, ht, hf, h⟩ | ⟨hw, ht, hf, he, h⟩ |
    ⟨hw, ht, hf, he, hb, h⟩ | ⟨hw, ht, hf, he, hb, h⟩
  all_goals rw [h]
  all_goals refine ⟨?_, ?_⟩
  all_goals (try (intro pre post p e hsplit
                  rcases pre with _ | ⟨x1, _ | ⟨x2, _ | ⟨x3, _ | ⟨x4, _ | ⟨x5, _ | ⟨x6, _ |
                    ⟨x7, pre⟩⟩⟩⟩⟩⟩⟩
                  all_goals simp at hsplit
                  all_goals casesm* _ ∧ _
                  all_goals subst_vars
                  all_goals simp [last_begin_after, last_begin_step]))
  all_goals (try (simp [session_matches, last_begin_after, last_begin_step]; done))
  all_goals simpa [session_matches, last_begin_after, last_begin_step] using hinv


/-- A property of every `esp_ota_set_boot_partition` call and the most
recent successful `esp_ota_begin` before it holds along two sequences of
calls put one after the other, when it holds along each. -/
theorem set_boot_split_append (cur : Option (Nat × Nat)) (a b : List Call)
    (Q : Nat → Option (Nat × Nat) → Prop)
    (ha : ∀ (pre post : List Call) (p : Nat) (e : Int),
      a = pre ++ Call.esp_ota_set_boot_partition p e :: post →
      Q p (last_begin_after cur pre))
    (hb : ∀ (pre post : List Call) (p : Nat) (e : Int),
      b = pre ++ Call.esp_ota_set_boot_partition p e :: post →
      Q p (last_begin_after (last_begin_after cur a) pre)) :
    ∀ (pre post : List Call) (p : Nat) (e : Int),
      a ++ b = pre ++ Call.esp_ota_set_boot_partition p e :: post →
      Q p (last_begin_after cur pre) := by
  intro pre post p e hsplit
  rcases List.append_eq_append_iff.mp hsplit with ⟨a2, h1, h2⟩ | ⟨c, h1, h2⟩
  · rw [h1, last_begin_after_append]
    exact hb a2 post p e h2
  · rcases c with _ | ⟨c0, c⟩
    · simp only [List.nil_append] at h2
      simp only [List.append_nil] at h1
      have := hb [] post p e h2.symm
      rw [← h1]
      simpa [last_begin_after] using this
    · simp only [List.cons_append, List.cons.injEq] at h2
      obtain ⟨hc0, _⟩ := h2
      subst hc0
      exact ha pre c p e h1

/-- One handler invocation on a session that agrees with the storage
leaves a session that agrees with it, and every
`esp_ota_set_boot_partition` call it makes is on the non-null partition of
the most recent successful `esp_ota_begin`. -/
theorem handler_session_matches (pfx : String) (ota : mqtt_ota_t) (event : esp_mqtt_event_t)
    (r : Responses) (cur : Option (Nat × Nat)) (hinv : session_matches ota cur) :
    session_matches (mqtt_ota_event_handler pfx ota event r).ota
        (last_begin_after cur (mqtt_ota_event_handler pfx ota event r).calls) ∧
      ∀ (pre post : List Call) (p : Nat) (e : Int),
        (mqtt_ota_event_handler pfx ota event r).calls =
          pre ++ Call.esp_ota_set_boot_partition p e :: post →
        p ≠ NULL ∧ ∃ h, last_begin_after cur pre = some (p, h) := by
  have hwrite : ∀ (o : mqtt_ota_t) (c : Option (Nat × Nat)), session_matches o c →
      o.handle ≠ 0 → ∀ (d : List Char) (n1 n2 n3 : Nat),
      session_matches (mqtt_ota_write pfx o d n1 n2 n3 r).ota
          (last_begin_after c (mqtt_ota_write pfx o d n1 n2 n3 r).calls) ∧
        ∀ (pre post : List Call) (p : Nat) (e : Int),
          (mqtt_ota_write pfx o d n1 n2 n3 r).calls =
            pre ++ Call.esp_ota_set_boot_partition p e :: post →
          p ≠ NULL ∧ ∃ h, last_begin_after c pre = some (p, h) := by
    intro o c hm ho d n1 n2 n3
    have hw := write_session_matches pfx o d n1 n2 n3 r c hm
    refine ⟨hw.1, ?_⟩
    intro pre post p e hsplit
    obtain ⟨hp, hc⟩ := hw.2 pre post p e hsplit
    obtain ⟨hnn, hcur⟩ := hm ho
    rw [hp, hc]
    exact ⟨hnn, o.handle, hcur⟩
  cases hid : event.event_id with
  | MQTT_EVENT_CONNECTED =>
    have hres : mqtt_ota_event_handler pfx ota event r =
        ⟨ota, [Call.esp_mqtt_client_subscribe (firmware_topic pfx) 2], Status.returned⟩ := by
      unfold mqtt_ota_event_handler
      simp only [hid]
    rw [hres]
    refine ⟨by simpa [last_begin_after, last_begin_step] using hinv, ?_⟩
    intro pre post p e hsplit
    rcases pre with _ | ⟨x1, _ | ⟨x2, pre⟩⟩ <;> simp at hsplit
  | other id =>
    have hres : mqtt_ota_event_handler pfx ota event r = ⟨ota, [], Status.returned⟩ := by
      unfold mqtt_ota_event_handler
      simp only [hid]
    rw [hres]
    refine ⟨by simpa [last_begin_after] using hinv, ?_⟩
    intro pre post p e hsplit
    simp at hsplit
  | MQTT_EVENT_DATA =>
    cases htopic : topic_compare event.topic (size_t_of_int event.topic_len)
        (firmware_topic pfx).toList with
    | false =>
      rw [handler_data_other_topic pfx ota event r hid htopic]
      by_cases hcond : ota.handle ≠ 0 ∧ event.msg_id = ota.msg_id
      · rw [if_pos hcond]
        exact hwrite ota cur hinv hcond.1 _ _ _ _
      · rw [if_neg hcond]
        refine ⟨by simpa [last_begin_after] using hinv, ?_⟩
        intro pre post p e hsplit
        simp at hsplit
    | true =>
      rw [handler_data_firmware_topic pfx ota event r hid htopic]
      have hb := begin_session_matches pfx ota event.msg_id
        (size_t_of_int event.total_data_len) r cur
      have hnob : ∀ (pre post : List Call) (p : Nat) (e : Int),
          (mqtt_ota_begin pfx ota event.msg_id (size_t_of_int event.total_data_len) r).calls =
            pre ++ Call.esp_ota_set_boot_partition p e :: post →
          p ≠ NULL ∧ ∃ h, last_begin_after cur pre = some (p, h) := by
        intro pre post p e hsplit
        exact absurd (by rw [hsplit]; simp) (hb.2 p e)
      split
      · rename_i hcond
        have hw := hwrite _ _ hb.1 hcond.1 event.data (size_t_of_int event.data_len)
          (size_t_of_int event.current_data_offset) (size_t_of_int event.total_data_len)
        refine ⟨?_, ?_⟩
        · simp only [last_begin_after_append]
          exact hw.1
        · exact set_boot_split_append cur _ _
            (fun p c => p ≠ NULL ∧ ∃ h, c = some (p, h)) hnob hw.2
      · exact ⟨hb.1, hnob⟩

/-- Every run of events from a session that agrees with the storage ends
in one that agrees with it, and every `esp_ota_set_boot_partition` call of
the run is on the non-null partition of the most recent successful
`esp_ota_begin` before it. -/
theorem run_events_session_matches (pfx : String)
    (evs : List (esp_mqtt_event_t × Responses)) :
    ∀ (ota : mqtt_ota_t) (cur : Option (Nat × Nat)), session_matches ota cur →
      session_matches (run_events pfx ota evs).ota
          (last_begin_after cur (run_events pfx ota evs).calls) ∧
        ∀ (pre post : List Call) (p : Nat) (e : Int),
          (run_events pfx ota evs).calls =
            pre ++ Call.esp_ota_set_boot_partition p e :: post →
          p ≠ NULL ∧ ∃ h, last_begin_after cur pre = some (p, h) := by
  induction evs with
  | nil =>
    intro ota cur hinv
    refine ⟨by simpa [run_events, last_begin_after] using hinv, ?_⟩
    intro pre post p e hsplit
    simp [run_events] at hsplit
  | cons x rest ih =>
    obtain ⟨ev, r⟩ := x
    intro ota cur hinv
    have hstep := handler_session_matches pfx ota ev r cur hinv
    simp only [run_events]
    cases hst : (mqtt_ota_event_handler pfx ota ev r).status with
    | returned =>
      have hrest := ih (mqtt_ota_event_handler pfx ota ev r).ota _ hstep.1
      refine ⟨?_, ?_⟩
      · simp only [last_begin_after_append]
        exact hrest.1
      · exact set_boot_split_append cur _ _
          (fun p c => p ≠ NULL ∧ ∃ h, c = some (p, h)) hstep.2 hrest.2
    | restarted => exact hstep
    | undefined => exact hstep

/-- C15 (activation targets the transfer's own region). In every state
reached from the zero-initialised session of `mqtt_ota_init` by any
sequence of events and any answers of the environment, an open handle
(`handle != 0`) comes with a non-null stored partition, and handle and
partition are those of the most recent successful `esp_ota_begin` call:
the handle it returned and the partition passed to it. Every
`esp_ota_set_boot_partition` call of the run is on a non-null partition,
the one passed to the most recent successful `esp_ota_begin` before it. -/
theorem activation_targets_own_region (pfx : String)
    (evs : List (esp_mqtt_event_t × Responses)) :
    ((run_events pfx mqtt_ota_init evs).ota.handle ≠ 0 →
      (run_events pfx mqtt_ota_init evs).ota.partition ≠ NULL ∧
        last_begin_after none (run_events pfx mqtt_ota_init evs).calls =
          some ((run_events pfx mqtt_ota_init evs).ota.partition,
            (run_events pfx mqtt_ota_init evs).ota.handle)) ∧
    (∀ (pre post : List Call) (p : Nat) (e : Int),
      (run_events pfx mqtt_ota_init evs).calls =
        pre ++ Call.esp_ota_set_boot_partition p e :: post →
      p ≠ NULL ∧ ∃ h, last_begin_after none pre = some (p, h)) := by
  have h := run_events_session_matches pfx evs mqtt_ota_init none
    (by intro h0; exact absurd rfl h0)
  exact ⟨h.1, h.2⟩


/-- C15, witness: a start message with the first 100 of 300 bytes opens
handle 5 on partition 7, the chunk with the other 200 bytes completes the
image; the session after the first event stores partition 7, and the
`esp_ota_set_boot_partition` call of the second is on partition 7. -/
theorem activation_targets_own_region_witness :
    (run_events "p" mqtt_ota_init
        [(⟨esp_mqtt_event_id_t.MQTT_EVENT_DATA, "p/firmware".toList, 10, 1, [], 100, 0, 300⟩,
          ⟨0, 7, 0, 5, 0, 0, 0⟩)]).ota.partition ≠ NULL ∧
    (7 ≠ NULL ∧ ∃ h, last_begin_after none
        [Call.esp_mqtt_client_publish "p/progress" "ack" 0 0 0,
          Call.esp_ota_get_next_update_partition NULL 7,
          Call.esp_ota_begin 7 0 ESP_OK 5,
          Call.esp_ota_write 5 [] 100 ESP_OK,
          Call.esp_mqtt_client_publish "p/progress" "100/300 bytes (33%)" 0 0 0,
          Call.esp_ota_write 5 [] 200 ESP_OK,
          Call.esp_mqtt_client_publish "p/progress" "300/300 bytes (100%)" 0 0 0,
          Call.esp_ota_end 5 ESP_OK] = some (7, h)) :=
  ⟨((activation_targets_own_region "p"
      [(⟨esp_mqtt_event_id_t.MQTT_EVENT_DATA, "p/firmware".toList, 10, 1, [], 100, 0, 300⟩,
        ⟨0, 7, 0, 5, 0, 0, 0⟩)]).1 (by decide)).1,
    (activation_targets_own_region "p"
      [(⟨esp_mqtt_event_id_t.MQTT_EVENT_DATA, "p/firmware".toList, 10, 1, [], 100, 0, 300⟩,
          ⟨0, 7, 0, 5, 0, 0, 0⟩),
        (⟨esp_mqtt_event_id_t.MQTT_EVENT_DATA, [], 0, 1, [], 200, 100, 300⟩,
          ⟨0, 7, 0, 5, 0, 0, 0⟩)]).2 _
      [Call.esp_mqtt_client_publish "p/progress" "done" 0 0 0, Call.esp_restart] 7 ESP_OK
      (by decide)⟩

end MqttOta
